import Mathlib

/-!
Verification model of the wikidata-rdf-patch diffing engine
(`src/wikidata_rdf_patch/rdf_patch.py` and `src/wikidata_rdf_patch/mediawiki_api.py`).

The Python program is shallowly embedded: the entity data model (TypedDicts in
`wikidata_typing.py`) becomes Lean structures where optional dict keys are
`Option` fields, Python `dict`s whose insertion order matters become
association lists, mutation becomes explicit state passing, and fallible code
(`KeyError`, `ValueError`, `assert`) returns `Except String`.
-/

namespace WRP

/-! ## Data model (`wikidata_typing.py`) -/

/-- `WikibaseEntityIdDataValue.value`: `entity-type`, optional `numeric-id`,
optional `id` (the equality code guards each key with `in`). -/
structure EntityIdValue where
  entityType : String
  numericId : Option Int := none
  id : Option String := none
deriving DecidableEq

/-- `QuantityValue`: required `amount` and `unit`, optional bounds. -/
structure QuantityValue where
  amount : String
  upperBound : Option String := none
  lowerBound : Option String := none
  unit : String := "1"
deriving DecidableEq

/-- `TimeValue`. -/
structure TimeValue where
  time : String
  timezone : Int := 0
  before : Int := 0
  after : Int := 0
  precision : Int := 11
  calendarmodel : String
deriving DecidableEq

/-- `MonolingualTextValue` (language tag + text). -/
structure MonolingualTextValue where
  language : String
  text : String
deriving DecidableEq

/-- `GlobecoordinateValue`.  The Python code stores `float` latitude/longitude
parsed from the WKT literal; no claim exercises coordinate arithmetic, so the
two numbers are kept as their matched lexical substrings. `altitude` is always
`None` and `precision`/`globe` are the fixed constants from the resolver. -/
structure GlobeValue where
  latitude : String
  longitude : String
  precisionLex : String := "0.0001"
  globe : String := "http://www.wikidata.org/entity/Q2"
deriving DecidableEq

/-- `DataValue`: tagged union over the "type" discriminant. -/
inductive DataValue
  | wikibaseEntityid (v : EntityIdValue)
  | string (v : String)
  | monolingualtext (v : MonolingualTextValue)
  | quantity (v : QuantityValue)
  | time (v : TimeValue)
  | globecoordinate (v : GlobeValue)
deriving DecidableEq

/-- The `"type"` discriminant string of a data value. -/
def DataValue.typeTag : DataValue → String
  | .wikibaseEntityid _ => "wikibase-entityid"
  | .string _ => "string"
  | .monolingualtext _ => "monolingualtext"
  | .quantity _ => "quantity"
  | .time _ => "time"
  | .globecoordinate _ => "globecoordinate"

/-- `Snak`: value-bearing, somevalue or novalue.  The resolver never sets
`hash`; prefetched snaks may carry one, and Python `==` (used by the change
detector) compares it, so it is kept as a field. -/
inductive Snak
  | value (property : String) (datatype : String) (datavalue : DataValue)
      (hash : Option String := none)
  | somevalue (property : String) (datatype : Option String := none)
      (hash : Option String := none)
  | novalue (property : String) (datatype : Option String := none)
      (hash : Option String := none)
deriving DecidableEq

def Snak.property : Snak → String
  | .value p _ _ _ => p
  | .somevalue p _ _ => p
  | .novalue p _ _ => p

/-- `Rank`. -/
inductive Rank
  | preferred
  | normal
  | deprecated
deriving DecidableEq

/-- `Reference`: snak groups keyed by property id plus explicit key order. -/
structure Reference where
  hash : Option String := none
  snaks : List (String × List Snak)
  snaksOrder : List String
deriving DecidableEq

/-- `Statement`.  `qualifiers`, `qualifiers-order` and `references` are
optional dict keys, created on demand by the engine. -/
structure Statement where
  id : String
  type : String := "statement"
  rank : Rank
  mainsnak : Snak
  qualifiers : Option (List (String × List Snak)) := none
  qualifiersOrder : Option (List String) := none
  references : Option (List Reference) := none
deriving DecidableEq

/-- `Item`: the fields of the entity dict the engine reads or writes. -/
structure Item where
  id : String
  lastrevid : Int
  claims : Option (List (String × List Statement)) := none
deriving DecidableEq

/-- The prefetched entity map: a Python dict, i.e. an association list in
insertion order. -/
abbrev Items := List (String × Item)

/-- `ALLOWED_DATA_TYPE_VALUE_TYPES`: canonical value type per datatype;
`none` models the `KeyError` on an unknown datatype. -/
def allowedDataTypeValueType : String → Option String
  | "commonsMedia" => some "string"
  | "geo-shape" => some "string"
  | "tabular-data" => some "string"
  | "url" => some "string"
  | "external-id" => some "string"
  | "wikibase-item" => some "wikibase-entityid"
  | "wikibase-property" => some "wikibase-entityid"
  | "globe-coordinate" => some "globecoordinate"
  | "monolingualtext" => some "monolingualtext"
  | "quantity" => some "quantity"
  | "string" => some "string"
  | "time" => some "time"
  | "musical-notation" => some "string"
  | "math" => some "string"
  | "wikibase-lexeme" => some "wikibase-entityid"
  | "wikibase-form" => some "wikibase-entityid"
  | "wikibase-sense" => some "wikibase-entityid"
  | _ => none

/-! ## Value equality (`_datavalue_equals` and friends) -/

/-- The "unitless" test of `_datavalue_equals`: the literal `"1"` or the
historical `https://www.wikidata.org/wiki/Q199` unit alias. -/
def quantityUnitless (v : QuantityValue) : Bool :=
  v.unit == "1" || v.unit == "https://www.wikidata.org/wiki/Q199"

/-- `_datavalue_equals`.  Entity ids are alias-tolerant; quantities have the
bounds and unitless special cases (the bounds test looks only at the first
argument's `upperBound`); everything else is Python structural `==`. -/
def datavalue_equals (a b : DataValue) : Bool :=
  match a, b with
  | .wikibaseEntityid va, .wikibaseEntityid vb =>
    if va.entityType ≠ vb.entityType then false
    else
      match va.numericId, vb.numericId with
      | some x, some y => x == y
      | _, _ =>
        match va.id, vb.id with
        | some x, some y => x == y
        | _, _ => false
  | .quantity va, .quantity vb =>
    if va.upperBound.isSome && vb.upperBound.isNone then va.amount == vb.amount
    else if quantityUnitless va && quantityUnitless vb then va.amount == vb.amount
    else va == vb
  | _, _ => a == b

/-- `_snak_equals`: snaktype, property, then value equality for value snaks
(datatype and hash are ignored). -/
def snak_equals (a b : Snak) : Bool :=
  match a, b with
  | .value pa _ va _, .value pb _ vb _ => pa == pb && datavalue_equals va vb
  | .somevalue pa _ _, .somevalue pb _ _ => pa == pb
  | .novalue pa _ _, .novalue pb _ _ => pa == pb
  | _, _ => false

/-- `_any_snak_equals`. -/
def any_snak_equals (snaks : List Snak) (snak : Snak) : Bool :=
  snaks.any (fun s => snak_equals s snak)

/-- `_only_snak_equals`. -/
def only_snak_equals (snaks : List Snak) (snak : Snak) : Bool :=
  snaks.length == 1 && snak_equals (snaks.headD snak) snak

/-- `_statements_contains_snak`: any rank. -/
def statements_contains_snak (statements : List Statement) (snak : Snak) : Bool :=
  statements.any (fun st => snak_equals st.mainsnak snak)

/-- `_statements_contains_direct_snak`: skips deprecated-rank statements. -/
def statements_contains_direct_snak (statements : List Statement) (snak : Snak) : Bool :=
  statements.any (fun st => st.rank ≠ Rank.deprecated && snak_equals st.mainsnak snak)

/-- `_snaks_equals`: positional comparison of two snak lists. -/
def snaks_equals (a b : List Snak) : Bool :=
  a.length == b.length && (a.zip b).all (fun p => snak_equals p.1 p.2)

/-- `_reference_equals`: identical `snaks-order`, then per-property
positionally equal snak lists.  The Python code indexes `snaks[pid]`
directly (a `KeyError` on ill-formed references); well-formed references have
every ordered pid present, modelled here with a `[]` default. -/
def reference_equals (a b : Reference) : Bool :=
  if a.snaksOrder ≠ b.snaksOrder then false
  else a.snaksOrder.all (fun pid =>
    snaks_equals ((a.snaks.lookup pid).getD []) ((b.snaks.lookup pid).getD []))

/-- `_references_contains`. -/
def references_contains (refs : List Reference) (r : Reference) : Bool :=
  refs.any (fun x => reference_equals x r)

/-! ## RDF graph model

The engine consumes an `rdflib` graph only through qname classification
(`_compute_qname`), so URIs are represented by their computed
`(namespace-prefix, local-name)` pair — `("", full-uri)` for URIs outside the
bound namespaces, exactly the fallback `_compute_qname` returns. -/

/-- The datatype tag of a typed literal. -/
inductive LitType
  | decimal
  | dateTime
  | date
  | integer
  | wkt
  | other (s : String)
deriving DecidableEq

/-- An RDF literal: lexical form, optional language tag, optional datatype.
Decimal literals carry the rdflib-normalized lexical form (rdflib parses
`xsd:decimal` through `decimal.Decimal` and writes it back). -/
structure RDFLiteral where
  lex : String
  lang : Option String := none
  datatype : Option LitType := none
deriving DecidableEq

/-- A graph term. -/
inductive RDFNode
  | uri (ns localName : String)
  | bnode (n : Nat)
  | lit (l : RDFLiteral)
deriving DecidableEq

/-- A predicate, already passed through `_compute_qname`. -/
abbrev QName := String × String

/-- The parsed graph: a triple list in document order. -/
structure Graph where
  triples : List (RDFNode × QName × RDFNode)
deriving DecidableEq

/-- First-occurrence deduplication, modelling rdflib's `unique=True`
iteration (fuel-structured on the list length so it computes by `rfl`;
each step consumes at least one element, so `l.length` fuel is enough). -/
def dedupFirstAux {α : Type} [DecidableEq α] : Nat → List α → List α
  | _, [] => []
  | 0, _ => []
  | fuel + 1, a :: as => a :: dedupFirstAux fuel (as.filter (fun b => b ≠ a))

def dedupFirst {α : Type} [DecidableEq α] (l : List α) : List α :=
  dedupFirstAux l.length l

/-- `_subjects`: unique subjects in encounter order. -/
def Graph.subjects (g : Graph) : List RDFNode :=
  dedupFirst (g.triples.map (fun t => t.1))

/-- `_predicate_objects`: unique (predicate, object) pairs of a subject. -/
def Graph.predicateObjects (g : Graph) (s : RDFNode) : List (QName × RDFNode) :=
  dedupFirst (g.triples.filterMap (fun t => if t.1 = s then some t.2 else none))

/-- `_predicates`. -/
def Graph.predicates (g : Graph) (s : RDFNode) : List QName :=
  dedupFirst (g.triples.filterMap (fun t => if t.1 = s then some t.2.1 else none))

/-- `_objects`. -/
def Graph.objects (g : Graph) (s : RDFNode) (p : QName) : List RDFNode :=
  dedupFirst (g.triples.filterMap
    (fun t => if t.1 = s ∧ t.2.1 = p then some t.2.2 else none))

/-- `_value`: the single object, the first on plural match (warned), `none`
when absent. -/
def Graph.value (g : Graph) (s : RDFNode) (p : QName) : Option RDFNode :=
  (g.objects s p).head?

/-- `_literal`: `_value` restricted to literals (non-literal warned to
`none`). -/
def Graph.literal (g : Graph) (s : RDFNode) (p : QName) : Option RDFLiteral :=
  match g.value s p with
  | some (.lit l) => some l
  | _ => none

/-- `_graph_empty_node`: a blank node with no outgoing triples. -/
def Graph.emptyNode (g : Graph) (o : RDFNode) : Bool :=
  match o with
  | .bnode _ => g.triples.all (fun t => t.1 ≠ o)
  | _ => false

/-- The namespace table bound in `NS_MANAGER` (plus the rdflib defaults the
code relies on), used where the source calls `str(uriref)`. -/
def nsExpand : String → String
  | "wikibase" => "http://wikiba.se/ontology#"
  | "wd" => "http://www.wikidata.org/entity/"
  | "wds" => "http://www.wikidata.org/entity/statement/"
  | "wdv" => "http://www.wikidata.org/value/"
  | "wdref" => "http://www.wikidata.org/reference/"
  | "wdt" => "http://www.wikidata.org/prop/direct/"
  | "p" => "http://www.wikidata.org/prop/"
  | "wdno" => "http://www.wikidata.org/prop/novalue/"
  | "ps" => "http://www.wikidata.org/prop/statement/"
  | "psv" => "http://www.wikidata.org/prop/statement/value/"
  | "pq" => "http://www.wikidata.org/prop/qualifier/"
  | "pqe" => "http://www.wikidata.org/prop/qualifier/exclusive/"
  | "pqv" => "http://www.wikidata.org/prop/qualifier/value/"
  | "pqve" => "http://www.wikidata.org/prop/qualifier/value-exclusive/"
  | "pr" => "http://www.wikidata.org/prop/reference/"
  | "prv" => "http://www.wikidata.org/prop/reference/value/"
  | "geo" => "http://www.opengis.net/ont/geosparql#"
  | "commonsMedia" => "http://commons.wikimedia.org/wiki/Special:FilePath/"
  | "wikidatabots" => "https://github.com/josh/wikidatabots#"
  | "rdf" => "http://www.w3.org/1999/02/22-rdf-syntax-ns#"
  | "prov" => "http://www.w3.org/ns/prov#"
  | _ => ""

/-- `str(uriref)`: the full URI string of a qname pair. -/
def uriStr (ns localName : String) : String :=
  nsExpand ns ++ localName

/-! ## Term resolution (`_resolve_object*`) -/

/-- Hex digit value, for percent decoding. -/
def hexVal (c : Char) : Option Nat :=
  if '0' ≤ c ∧ c ≤ '9' then some (c.toNat - '0'.toNat)
  else if 'a' ≤ c ∧ c ≤ 'f' then some (c.toNat - 'a'.toNat + 10)
  else if 'A' ≤ c ∧ c ≤ 'F' then some (c.toNat - 'A'.toNat + 10)
  else none

/-- `urllib.parse.unquote` on the character level (exact for ASCII
percent-escapes, which is all the engine's commons-media filenames use per
escape). -/
def percentDecodeChars : List Char → List Char
  | '%' :: a :: b :: rest =>
    match hexVal a, hexVal b with
    | some x, some y => Char.ofNat (16 * x + y) :: percentDecodeChars rest
    | _, _ => '%' :: a :: percentDecodeChars (b :: rest)
  | c :: rest => c :: percentDecodeChars rest
  | [] => []

def percentDecode (s : String) : String :=
  String.mk (percentDecodeChars s.data)

/-- `str.startswith`, character level. -/
def strStartsWith (s p : String) : Bool :=
  p.data.isPrefixOf s.data

/-- `str(decimal.Decimal(lex))` for canonical lexical forms: the sign
normalization that drops an explicit leading `+` (what rdflib's
literal normalization and `toPython` produce). -/
def decimalCanon (s : String) : String :=
  match s.data with
  | '+' :: rest => String.mk rest
  | _ => s

/-- A parsed `datetime.datetime` (or `datetime.date`, with zero time). -/
structure PyDateTime where
  year : Nat
  month : Nat
  day : Nat
  hour : Nat
  minute : Nat
  second : Nat
deriving DecidableEq

/-- Zero-padded 2-digit field. -/
def pad2 (n : Nat) : String :=
  if n < 10 then "0" ++ toString n else toString n

/-- Zero-padded 4-digit year. -/
def pad4 (n : Nat) : String :=
  let s := toString n
  String.mk (List.replicate (4 - s.length) '0') ++ s

/-- `strftime("+%Y-%m-%dT%H:%M:%SZ")`. -/
def strftimePlus (dt : PyDateTime) : String :=
  "+" ++ (pad4 dt.year ++ "-" ++ pad2 dt.month ++ "-" ++ pad2 dt.day ++ "T" ++
    pad2 dt.hour ++ ":" ++ pad2 dt.minute ++ ":" ++ pad2 dt.second ++ "Z")

/-- Split a character list at every occurrence of a separator (the
character-level `str.split(sep)`; the result is never empty). -/
def splitOnChar (c : Char) : List Char → List (List Char)
  | [] => [[]]
  | x :: xs =>
    let r := splitOnChar c xs
    if x = c then [] :: r
    else
      match r with
      | h :: t => (x :: h) :: t
      | [] => [[x]]

/-- Digits-only string to `Nat` (`int()` on a non-negative decimal). -/
def charsToNat?Go : List Char → Nat → Option Nat
  | [], acc => some acc
  | c :: cs, acc =>
    if '0' ≤ c ∧ c ≤ '9' then charsToNat?Go cs (acc * 10 + (c.toNat - '0'.toNat))
    else none

def charsToNat? : List Char → Option Nat
  | [] => none
  | l => charsToNat?Go l 0

/-- Optionally signed decimal string to `Int` (`int()`), character level. -/
def charsToInt? : List Char → Option Int
  | '-' :: rest => (charsToNat? rest).map (fun n => -(n : Int))
  | '+' :: rest => (charsToNat? rest).map Int.ofNat
  | l => (charsToNat? l).map Int.ofNat

/-- Drop one trailing `Z`. -/
def stripTrailingZ (cs : List Char) : List Char :=
  match cs.reverse with
  | 'Z' :: rest => rest.reverse
  | _ => cs

/-- Parse `YYYY-MM-DD`. -/
def parseDateParts (d : List Char) : Option (Nat × Nat × Nat) :=
  match splitOnChar '-' d with
  | [y, m, dd] =>
    match charsToNat? y, charsToNat? m, charsToNat? dd with
    | some yv, some mv, some dv => some (yv, mv, dv)
    | _, _, _ => none
  | _ => none

/-- ISO 8601 parsing as done by rdflib's `toPython` /
`datetime.fromisoformat`: `YYYY-MM-DD` optionally followed by
`Thh:mm:ss` and a trailing `Z` (fractional seconds and offsets are not
exercised by the engine's inputs). -/
def parseDateTime (s : String) : Option PyDateTime :=
  let cs := stripTrailingZ s.data
  match splitOnChar 'T' cs with
  | [d] =>
    (parseDateParts d).map (fun p => ⟨p.1, p.2.1, p.2.2, 0, 0, 0⟩)
  | [d, t] =>
    match parseDateParts d, splitOnChar ':' t with
    | some p, [h, m, sec] =>
      match charsToNat? h, charsToNat? m, charsToNat? sec with
      | some hv, some mv, some sv => some ⟨p.1, p.2.1, p.2.2, hv, mv, sv⟩
      | _, _, _ => none
    | _, _ => none
  | _ => none

/-- `re.match(r"Point\(([-0-9.]+) ([-0-9.]+)\)", ...)`: longitude and
latitude lexical parts of a WKT point. -/
def parsePoint (s : String) : Option (String × String) :=
  if strStartsWith s "Point(" ∧ s.data.reverse.head? = some ')' then
    let inner := ((s.data.drop 6).reverse.drop 1).reverse
    match splitOnChar ' ' inner with
    | [lon, lat] =>
      let chOk := fun (c : Char) => c = '-' ∨ c = '.' ∨ ('0' ≤ c ∧ c ≤ '9')
      if lon ≠ [] ∧ lat ≠ [] ∧ lon.all chOk ∧ lat.all chOk then
        some (String.mk lon, String.mk lat)
      else none
    | _ => none
  else none

/-- `_resolve_object_uriref`: entity references, commons-media filenames
(percent-decoded), opaque URIs as plain strings. -/
def resolve_object_uriref (ns localName : String) : Except String DataValue :=
  if ns = "wd" ∧ strStartsWith localName "Q" then
    match charsToNat? (localName.data.drop 1) with
    | some n => .ok (.wikibaseEntityid ⟨"item", some (Int.ofNat n), some localName⟩)
    | none => .error "invalid numeric id"
  else if ns = "wd" ∧ strStartsWith localName "P" then
    match charsToNat? (localName.data.drop 1) with
    | some n => .ok (.wikibaseEntityid ⟨"property", some (Int.ofNat n), some localName⟩)
    | none => .error "invalid numeric id"
  else if ns = "commonsMedia" then
    .ok (.string (percentDecode localName))
  else if ns = "" then
    .ok (.string localName)
  else
    .error ("Unknown URI: " ++ ns ++ ":" ++ localName)

/-- Literal truthiness: a present literal whose lexical form is non-empty
(rdflib `Literal` is a `str` subclass, so `if value := ...` tests the
lexical form). -/
def litTruthy (o : Option RDFLiteral) : Option RDFLiteral :=
  match o with
  | some v => if v.lex = "" then none else some v
  | none => none

/-- `_resolve_object_bnode_time_value`. -/
def resolve_object_bnode_time_value (g : Graph) (b : RDFNode) :
    Except String DataValue := do
  let value := litTruthy (g.literal b ("wikibase", "timeValue"))
  match value with
  | some v =>
    if v.datatype = none ∨ v.datatype = some LitType.dateTime then pure ()
    else .error "assert: timeValue datatype"
  | none => pure ()
  let precision := litTruthy (g.literal b ("wikibase", "timePrecision"))
  let precisionVal ← match precision with
    | some v =>
      if v.datatype ≠ some LitType.integer then .error "assert: timePrecision datatype"
      else match charsToInt? v.lex.data with
        | some n =>
          if 0 ≤ n ∧ n ≤ 14 then pure (some n)
          else .error "assert: timePrecision range"
        | none => .error "invalid integer literal"
    | none => pure none
  let timezone := litTruthy (g.literal b ("wikibase", "timeTimezone"))
  let timezoneVal ← match timezone with
    | some v =>
      if v.datatype ≠ some LitType.integer then .error "assert: timeTimezone datatype"
      else match charsToInt? v.lex.data with
        | some n => pure (some n)
        | none => .error "invalid integer literal"
    | none => pure none
  let calendarModel ← match g.value b ("wikibase", "timeCalendarModel") with
    | some (.uri ns localName) => pure (some (uriStr ns localName))
    | some _ => .error "assert: timeCalendarModel is URIRef"
    | none => pure none
  let timeStr ← match value with
    | some v =>
      match parseDateTime v.lex with
      | some dt => pure (strftimePlus dt)
      | none => .error "invalid datetime literal"
    | none => pure ""
  if timeStr = "" then .error "missing time value"
  else
    .ok (.time
      { time := timeStr
        precision := precisionVal.getD 11
        after := 0
        before := 0
        timezone := timezoneVal.getD 0
        calendarmodel := calendarModel.getD "https://www.wikidata.org/wiki/Q1985727" })

/-- `_resolve_object_bnode_quantity_value`. -/
def resolve_object_bnode_quantity_value (g : Graph) (b : RDFNode) :
    Except String DataValue := do
  let amount := litTruthy (g.literal b ("wikibase", "quantityAmount"))
  match amount with
  | some v =>
    if v.datatype ≠ some LitType.decimal then .error "assert: quantityAmount datatype"
    else pure ()
  | none => pure ()
  let upperBound := litTruthy (g.literal b ("wikibase", "quantityUpperBound"))
  match upperBound with
  | some v =>
    if v.datatype ≠ some LitType.decimal then .error "assert: quantityUpperBound datatype"
    else pure ()
  | none => pure ()
  let lowerBound := litTruthy (g.literal b ("wikibase", "quantityLowerBound"))
  match lowerBound with
  | some v =>
    if v.datatype ≠ some LitType.decimal then .error "assert: quantityLowerBound datatype"
    else pure ()
  | none => pure ()
  let unit ← match g.value b ("wikibase", "quantityUnit") with
    | some (.uri ns localName) => pure (some (uriStr ns localName))
    | some _ => .error "assert: quantityUnit is URIRef"
    | none => pure none
  match amount with
  | none => .error "missing amount value"
  | some av =>
    .ok (.quantity
      { amount := "+" ++ decimalCanon av.lex
        upperBound := upperBound.map (fun v => "+" ++ decimalCanon v.lex)
        lowerBound := lowerBound.map (fun v => "+" ++ decimalCanon v.lex)
        unit := unit.getD "1" })

/-- `_resolve_object_bnode`: dispatch on `rdf:type`. -/
def resolve_object_bnode (g : Graph) (b : RDFNode) (rdfType : Option RDFNode := none) :
    Except String DataValue :=
  let bnodeType := match rdfType with
    | some t => some t
    | none => g.value b ("rdf", "type")
  if bnodeType = some (.uri "wikibase" "TimeValue") then
    resolve_object_bnode_time_value g b
  else if bnodeType = some (.uri "wikibase" "QuantityValue") then
    resolve_object_bnode_quantity_value g b
  else .error "Unknown bnode"

/-- `_resolve_object_literal`. -/
def resolve_object_literal (l : RDFLiteral) : Except String DataValue :=
  if l.lang.isSome ∧ l.datatype = none then
    .ok (.monolingualtext ⟨l.lang.getD "", l.lex⟩)
  else if l.datatype = some LitType.decimal then
    .ok (.quantity { amount := "+" ++ decimalCanon l.lex, unit := "1" })
  else if l.lang = none ∧ l.datatype = none then
    .ok (.string l.lex)
  else if l.datatype = some LitType.dateTime ∨ l.datatype = some LitType.date then
    match parseDateTime l.lex with
    | some dt =>
      .ok (.time
        { time := strftimePlus dt
          precision := 11
          after := 0
          before := 0
          timezone := 0
          calendarmodel := "http://www.wikidata.org/entity/Q1985727" })
    | none => .error "invalid datetime literal"
  else if l.datatype = some LitType.wkt then
    match parsePoint l.lex with
    | some p => .ok (.globecoordinate { latitude := p.2, longitude := p.1 })
    | none => .error "invalid wktLiteral"
  else .error "not implemented datatype"

/-- `_resolve_object`. -/
def resolve_object (g : Graph) (o : RDFNode) : Except String DataValue :=
  match o with
  | .uri ns localName => resolve_object_uriref ns localName
  | .bnode _ => resolve_object_bnode g o
  | .lit l => resolve_object_literal l

/-- `_resolve_snak`: look up the property datatype, resolve the value, check
the datatype/value-type consistency invariant, build a value snak. -/
def resolve_snak (g : Graph) (pdt : List (String × String)) (pid : String)
    (o : RDFNode) : Except String Snak := do
  if ¬ strStartsWith pid "P" then .error ("assert: pid " ++ pid)
  else
    match pdt.lookup pid with
    | none => .error ("KeyError: " ++ pid)
    | some datatype => do
      let value ← resolve_object g o
      match allowedDataTypeValueType datatype with
      | some vt =>
        if value.typeTag = vt then
          .ok (.value pid datatype value none)
        else .error "assert: datavalue type mismatch"
      | none => .error "KeyError: unknown datatype"

/-! ## Python-`==` (structural dict) equality used by the change detector

Python compares statements with `!=`: dict equality is key-set plus
per-key value equality, insensitive to dict insertion order; lists compare
positionally. -/

/-- Dict equality of two association lists (well-formed dicts have no
duplicate keys). -/
def dictEqBy {β : Type} (f : β → β → Bool) (a b : List (String × β)) : Bool :=
  a.all (fun p => match b.lookup p.1 with | some v => f p.2 v | none => false) &&
  b.all (fun p => match a.lookup p.1 with | some v => f v p.2 | none => false)

/-- Positional list equality. -/
def listEqBy {α : Type} (f : α → α → Bool) (a b : List α) : Bool :=
  a.length == b.length && (a.zip b).all (fun p => f p.1 p.2)

/-- Equality of optional dict keys: a present key never equals a missing
one. -/
def optEqBy {α : Type} (f : α → α → Bool) : Option α → Option α → Bool
  | none, none => true
  | some x, some y => f x y
  | _, _ => false

/-- Python `==` on references (`hash` participates; `snaks` is a dict). -/
def reference_eq_py (a b : Reference) : Bool :=
  a.hash == b.hash && dictEqBy (fun x y => x == y) a.snaks b.snaks &&
    a.snaksOrder == b.snaksOrder

/-- Python `==` on statements. -/
def statement_eq_py (a b : Statement) : Bool :=
  a.id == b.id && a.type == b.type && a.rank == b.rank && a.mainsnak == b.mainsnak &&
  optEqBy (dictEqBy (fun x y => x == y)) a.qualifiers b.qualifiers &&
  optEqBy (fun x y => x == y) a.qualifiersOrder b.qualifiersOrder &&
  optEqBy (listEqBy reference_eq_py) a.references b.references

/-! ## Entity bookkeeping helpers -/

/-- `_new_statement_id`: entity id, `$`, a fresh UUID. -/
def new_statement_id (qid : String) (u : String) : String :=
  qid ++ "$" ++ u

/-- Dict assignment: replace the value at the (first, and for a Python
dict only) occurrence of the key, else append the pair at the end. -/
def dictSet {β : Type} (l : List (String × β)) (k : String) (v : β) :
    List (String × β) :=
  match l with
  | [] => [(k, v)]
  | a :: t => if a.1 = k then (k, v) :: t else a :: dictSet t k v

/-- The key-materializing side of `_item_property_claims`. -/
def item_ensure_property_claims (item : Item) (pid : String) : Item :=
  let cs := item.claims.getD []
  if (cs.lookup pid).isSome then { item with claims := some cs }
  else { item with claims := some (cs ++ [(pid, [])]) }

/-- The bucket read by `_item_property_claims` (after materialization). -/
def item_property_claims (item : Item) (pid : String) : List Statement :=
  ((item.claims.getD []).lookup pid).getD []

/-- Writing the bucket back (in-place list mutation in Python). -/
def item_set_property_claims (item : Item) (pid : String)
    (sts : List Statement) : Item :=
  { item with claims := some (dictSet (item.claims.getD []) pid sts) }

/-- The key-materializing side of `_statement_property_qualifiers`. -/
def statement_ensure_qualifiers (st : Statement) (pid : String) : Statement :=
  let qs := st.qualifiers.getD []
  let qs := if (qs.lookup pid).isSome then qs else qs ++ [(pid, [])]
  let order := st.qualifiersOrder.getD []
  let order := if pid ∈ order then order else order ++ [pid]
  { st with qualifiers := some qs, qualifiersOrder := some order }

/-- The bucket read by `_statement_property_qualifiers`. -/
def statement_property_qualifiers (st : Statement) (pid : String) : List Snak :=
  ((st.qualifiers.getD []).lookup pid).getD []

/-- Writing the qualifier bucket back. -/
def statement_set_property_qualifiers (st : Statement) (pid : String)
    (snaks : List Snak) : Statement :=
  { st with qualifiers := some (dictSet (st.qualifiers.getD []) pid snaks) }

/-- Drop a key from a dict. -/
def dictDel {β : Type} (l : List (String × β)) (k : String) :
    List (String × β) :=
  l.filter (fun p => p.1 ≠ k)

/-- `_delete_statement_property_qualifiers`: delete the qualifier bucket if
present, then unconditionally `list.remove` the pid from `qualifiers-order`
whenever that key exists — which raises `ValueError` when the pid is not in
the list. -/
def delete_statement_property_qualifiers (st : Statement) (pid : String) :
    Except String Statement :=
  if ¬ strStartsWith pid "P" then .error ("assert: pid " ++ pid)
  else
    let st :=
      match st.qualifiers with
      | some qs =>
        if (qs.lookup pid).isSome then { st with qualifiers := some (dictDel qs pid) }
        else st
      | none => st
    match st.qualifiersOrder with
    | some order =>
      if pid ∈ order then .ok { st with qualifiersOrder := some (order.erase pid) }
      else .error "ValueError: list.remove(x): x not in list"
    | none => .ok st

/-- The key-materializing side of `_statement_references`. -/
def statement_ensure_references (st : Statement) : Statement :=
  { st with references := some (st.references.getD []) }

/-- `_item_statements`: every statement of the item, bucket by bucket. -/
def item_statements (item : Item) : List Statement :=
  (item.claims.getD []).flatMap (fun p => p.2)

/-- Truthiness of a graph term used by walrus-guarded `_value` calls
(rdflib terms are `str` subclasses; only an empty-lexical literal is
falsy). -/
def nodeTruthy : RDFNode → Bool
  | .lit l => l.lex ≠ ""
  | _ => true

/-- A walrus-guarded `_value`: `none` also when the single object is falsy. -/
def Graph.valueTruthy (g : Graph) (s : RDFNode) (p : QName) : Option RDFNode :=
  match g.value s p with
  | some o => if nodeTruthy o then some o else none
  | none => none

/-! ## Statement-building (`_resolve_statement_*`, `_new_statement`) -/

/-- `_resolve_reference_snaks_order`: property ids of `pr`-family predicates
in first-seen order, deduplicated. -/
def resolve_reference_snaks_order (g : Graph) (s : RDFNode) : List String :=
  (g.predicates s).foldl
    (fun acc p =>
      if strStartsWith p.1 "pr" ∧ strStartsWith p.2 "P" ∧ p.2 ∉ acc then acc ++ [p.2]
      else acc) []

/-- `_resolve_object_bnode_reference`. -/
def resolve_object_bnode_reference (g : Graph) (pdt : List (String × String))
    (o : RDFNode) : Except String Reference := do
  let snaksOrder := resolve_reference_snaks_order g o
  let snaks ← snaksOrder.mapM (fun pid => do
    let prSnaks ← (g.objects o ("pr", pid)).mapM (resolve_snak g pdt pid)
    let prvSnaks ← (g.objects o ("prv", pid)).mapM (resolve_snak g pdt pid)
    pure (pid, prSnaks ++ prvSnaks))
  if snaksOrder.isEmpty then .error "assert: empty reference"
  else .ok { snaks := snaks, snaksOrder := snaksOrder }

/-- `_resolve_statement_references` (`prov:wasDerivedFrom`, cumulative). -/
def resolve_statement_references (g : Graph) (pdt : List (String × String))
    (s : RDFNode) : Except String (List Reference) :=
  (g.objects s ("prov", "wasDerivedFrom")).mapM (fun o =>
    match o with
    | .bnode _ => resolve_object_bnode_reference g pdt o
    | _ => .error "assert: reference must be a bnode")

/-- `_resolve_statement_exclusive_references` (`prov:wasOnlyDerivedFrom`):
the loop returns on the first object. -/
def resolve_statement_exclusive_references (g : Graph)
    (pdt : List (String × String)) (s : RDFNode) :
    Except String (List Reference) :=
  match g.objects s ("prov", "wasOnlyDerivedFrom") with
  | [] => .ok []
  | o :: _ =>
    match o with
    | .bnode _ => do
      let r ← resolve_object_bnode_reference g pdt o
      .ok [r]
    | _ => .error "assert: reference must be a bnode"

/-- `_resolve_statement_snak`: `psv:` preferred over `ps:`. -/
def resolve_statement_snak (g : Graph) (pdt : List (String × String))
    (s : RDFNode) (pid : String) : Except String (Option Snak) :=
  match g.valueTruthy s ("psv", pid) with
  | some o => do
    let snak ← resolve_snak g pdt pid o
    .ok (some snak)
  | none =>
    match g.valueTruthy s ("ps", pid) with
    | some o => do
      let snak ← resolve_snak g pdt pid o
      .ok (some snak)
    | none => .ok none

/-- `_RANKS`. -/
def rankOfUri : QName → Option Rank
  | ("wikibase", "NormalRank") => some .normal
  | ("wikibase", "DeprecatedRank") => some .deprecated
  | ("wikibase", "PreferredRank") => some .preferred
  | _ => none

/-- `_resolve_statement_rank`. -/
def resolve_statement_rank (g : Graph) (s : RDFNode) :
    Except String (Option Rank) :=
  match g.valueTruthy s ("wikibase", "rank") with
  | some (.uri ns localName) =>
    match rankOfUri (ns, localName) with
    | some r => .ok (some r)
    | none => .error "KeyError: unknown rank"
  | some _ => .error "assert: rank must be a URIRef"
  | none => .ok none

/-- `_resolve_statement_qualifiers_order`: local names of every
`pq`-family predicate, in order, duplicates kept. -/
def resolve_statement_qualifiers_order (g : Graph) (s : RDFNode) : List String :=
  (g.predicates s).filterMap (fun p =>
    if strStartsWith p.1 "pq" then some p.2 else none)

/-- `_resolve_statement_qualifiers`: `pq` and `pqv` objects appended, then an
exclusive `pqe`/`pqve` object overrides the list. -/
def resolve_statement_qualifiers (g : Graph) (pdt : List (String × String))
    (s : RDFNode) (pid : String) : Except String (List Snak) := do
  if ¬ strStartsWith pid "P" then .error ("assert: pid " ++ pid)
  else do
    let pqSnaks ← (g.objects s ("pq", pid)).mapM (resolve_snak g pdt pid)
    let pqvSnaks ← (g.objects s ("pqv", pid)).mapM (resolve_snak g pdt pid)
    let qualifiers := pqSnaks ++ pqvSnaks
    let qualifiers ← match g.valueTruthy s ("pqe", pid) with
      | some o => do
        let snak ← resolve_snak g pdt pid o
        pure [snak]
      | none => pure qualifiers
    let qualifiers ← match g.valueTruthy s ("pqve", pid) with
      | some o => do
        let snak ← resolve_snak g pdt pid o
        pure [snak]
      | none => pure qualifiers
    .ok qualifiers

/-- `_new_statement`: build a brand-new statement from a `p:` blank node;
returns the statement and the edit-summary text (`""` when absent). -/
def new_statement (g : Graph) (pdt : List (String × String)) (qid pid : String)
    (subject : RDFNode) (uid : String) : Except String (Statement × String) := do
  if ¬ strStartsWith qid "Q" then .error ("assert: qid " ++ qid)
  else if ¬ strStartsWith pid "P" then .error ("assert: pid " ++ pid)
  else do
    let snak? ← resolve_statement_snak g pdt subject pid
    match snak? with
    | none => .error ("assert: cannot resolve snak for " ++ qid ++ "/" ++ pid)
    | some snak => do
      let rank? ← resolve_statement_rank g subject
      let rank := rank?.getD .normal
      let qualifiersOrder := resolve_statement_qualifiers_order g subject
      let qualifiers ← qualifiersOrder.foldlM
        (fun acc qpid => do
          let snaks ← resolve_statement_qualifiers g pdt subject qpid
          pure (dictSet acc qpid snaks))
        ([] : List (String × List Snak))
      let xrefs ← resolve_statement_exclusive_references g pdt subject
      let references ←
        if xrefs.isEmpty then resolve_statement_references g pdt subject
        else pure xrefs
      let editSummary :=
        match litTruthy (g.literal subject ("wikidatabots", "editSummary")) with
        | some l => l.lex
        | none => ""
      let st : Statement :=
        { id := new_statement_id qid uid
          rank := rank
          mainsnak := snak
          qualifiers := if qualifiersOrder.length > 0 then some qualifiers else none
          qualifiersOrder := if qualifiersOrder.length > 0 then some qualifiersOrder else none
          references := if references.length > 0 then some references else none }
      .ok (st, editSummary)

/-! ## Statement lookup and the two update functions -/

/-- ASCII `str.upper()`. -/
def strUpper (s : String) : String :=
  s.map Char.toUpper

/-- Python `s.split(c, 1)`: split at the first occurrence only. -/
def splitOnce (s : String) (sep : Char) : Option (String × String) :=
  match s.splitOn (String.mk [sep]) with
  | [] => none
  | [_] => none
  | x :: rest => some (x, String.intercalate (String.mk [sep]) rest)

/-- `_find_claim_guid`: `Q…-uuid` local name to `(qid, statement)`;
`KeyError` when the item is absent, assertion failure when no statement
carries the guid. -/
def find_claim_guid (items : Items) (localName : String) :
    Except String (String × Statement) := do
  match splitOnce localName '-' with
  | none => .error "ValueError: not enough values to unpack"
  | some (qid, hash) =>
    let guid := qid ++ "$" ++ hash
    match items.lookup (strUpper qid) with
    | none => .error ("KeyError: " ++ strUpper qid)
    | some item =>
      match (item_statements item).find? (fun st => st.id = guid) with
      | some st => .ok (strUpper qid, st)
      | none => .error ("assert: cannot resolve statement GUID: " ++ guid)

/-- One qualifier-loop step of `_update_statement`. -/
def update_statement_qualifier_step (g : Graph) (pdt : List (String × String))
    (st : Statement) (pred : QName) (o : RDFNode) : Except String Statement := do
  if pred.1 = "pq" ∨ pred.1 = "pqv" then
    if ¬ strStartsWith pred.2 "P" then .error ("assert: pid " ++ pred.2)
    else do
      let snak ← resolve_snak g pdt pred.2 o
      let st := statement_ensure_qualifiers st pred.2
      let qualifiers := statement_property_qualifiers st pred.2
      if ¬ any_snak_equals qualifiers snak then
        pure (statement_set_property_qualifiers st pred.2 (qualifiers ++ [snak]))
      else pure st
  else if pred.1 = "pqe" ∨ pred.1 = "pqve" then
    if ¬ strStartsWith pred.2 "P" then .error ("assert: pid " ++ pred.2)
    else if g.emptyNode o then
      delete_statement_property_qualifiers st pred.2
    else do
      let snak ← resolve_snak g pdt pred.2 o
      let st := statement_ensure_qualifiers st pred.2
      let qualifiers := statement_property_qualifiers st pred.2
      if ¬ only_snak_equals qualifiers snak then
        pure (statement_set_property_qualifiers st pred.2 [snak])
      else pure st
  else pure st

/-- `_update_statement`: rank, main snak (replace if value-different),
cumulative references, exclusive references, then the qualifier loop;
returns the updated statement and any edit-summary text collected. -/
def update_statement (g : Graph) (pdt : List (String × String)) (qid : String)
    (statementSubject : RDFNode) (st : Statement) :
    Except String (Statement × List String) := do
  if ¬ strStartsWith qid "Q" then .error ("assert: qid " ++ qid)
  else do
    let rank? ← resolve_statement_rank g statementSubject
    let st := match rank? with
      | some r => { st with rank := r }
      | none => st
    let snak? ← resolve_statement_snak g pdt statementSubject st.mainsnak.property
    let st := match snak? with
      | some snak =>
        if ¬ snak_equals st.mainsnak snak then { st with mainsnak := snak } else st
      | none => st
    let newRefs ← resolve_statement_references g pdt statementSubject
    let st :=
      if newRefs.isEmpty then st
      else
        let st := statement_ensure_references st
        let refs := newRefs.foldl
          (fun existing r =>
            if ¬ references_contains existing r then existing ++ [r] else existing)
          (st.references.getD [])
        { st with references := some refs }
    let xrefs ← resolve_statement_exclusive_references g pdt statementSubject
    let st :=
      if xrefs.isEmpty then st
      else
        let st := statement_ensure_references st
        let existing := st.references.getD []
        if existing.length ≠ 1 ∨
            ¬ reference_equals (existing.headD { snaks := [], snaksOrder := [] })
              (xrefs.headD { snaks := [], snaksOrder := [] }) then
          { st with references := some xrefs }
        else st
    let st ← (g.predicateObjects statementSubject).foldlM
      (fun st p => update_statement_qualifier_step g pdt st p.1 p.2) st
    let summaries :=
      match litTruthy (g.literal statementSubject ("wikidatabots", "editSummary")) with
      | some l => [l.lex]
      | none => []
    .ok (st, summaries)

/-- A logged warning (`logger.warning` calls the claims care about). -/
inductive Warning
  | deprecatedSnak (qid pid : String)
deriving DecidableEq

/-- One predicate-loop step of `_update_item`.  The state is the item, the
warnings and summaries accumulated, and the fresh-uuid counter. -/
def update_item_step (g : Graph) (pdt : List (String × String)) (qid : String)
    (u : Nat → String) (acc : Item × List Warning × List String × Nat)
    (pred : QName) (o : RDFNode) :
    Except String (Item × List Warning × List String × Nat) := do
  let (item, warnings, summaries, c) := acc
  if pred.1 = "wdt" then
    match o with
    | .bnode _ => .error "assert: wdt object must be URIRef or Literal"
    | _ =>
      if ¬ strStartsWith pred.2 "P" then .error ("assert: pid " ++ pred.2)
      else do
        let snak ← resolve_snak g pdt pred.2 o
        let item := item_ensure_property_claims item pred.2
        let claims := item_property_claims item pred.2
        if ¬ statements_contains_snak claims snak then
          let st : Statement :=
            { id := new_statement_id qid (u c)
              rank := .normal
              mainsnak := snak }
          pure (item_set_property_claims item pred.2 (claims ++ [st]),
            warnings, summaries, c + 1)
        else if ¬ statements_contains_direct_snak claims snak then
          pure (item, warnings ++ [Warning.deprecatedSnak qid pred.2], summaries, c)
        else
          pure (item, warnings, summaries, c)
  else if pred.1 = "p" then
    match o with
    | .bnode _ => do
      if ¬ strStartsWith pred.2 "P" then .error ("assert: pid " ++ pred.2)
      else do
        let r ← new_statement g pdt qid pred.2 o (u c)
        let item := item_ensure_property_claims item pred.2
        let claims := item_property_claims item pred.2
        let item := item_set_property_claims item pred.2 (claims ++ [r.1])
        let summaries := if r.2 ≠ "" then summaries ++ [r.2] else summaries
        pure (item, warnings, summaries, c + 1)
    | _ => .error "assert: p object must be a BNode"
  else
    pure (item, warnings, summaries, c)

/-- `_update_item`: collect the item-level edit summary, then fold the
predicate loop. -/
def update_item (g : Graph) (pdt : List (String × String)) (item : Item)
    (itemSubject : RDFNode) (u : Nat → String) (c : Nat) :
    Except String (Item × List Warning × List String × Nat) := do
  let summaries :=
    match litTruthy (g.literal itemSubject ("wikidatabots", "editSummary")) with
    | some l => [l.lex]
    | none => []
  (g.predicateObjects itemSubject).foldlM
    (fun acc p => update_item_step g pdt item.id u acc p.1 p.2)
    (item, [], summaries, c)

/-! ## Change detection and the processing loop -/

/-- The `original_claims_by_guid` dict of `_detect_changed_claims`
(`assert guid` fails on an empty statement id). -/
def build_guid_map (orig : Items) : Except String (List (String × Statement)) :=
  orig.foldlM
    (fun acc p => (item_statements p.2).foldlM
      (fun acc st =>
        if st.id = "" then .error "assert: empty guid"
        else pure (dictSet acc st.id st))
      acc)
    ([] : List (String × Statement))

/-- The per-statement change test of `_detect_changed_claims`: no id yet,
id unknown to the snapshot, or structurally different from the original. -/
def statement_changed (m : List (String × Statement)) (st : Statement) : Bool :=
  if st.id = "" then true
  else
    match m.lookup st.id with
    | none => true
    | some origSt => ¬ statement_eq_py st origSt

/-- The changed statements of one item, in claims-traversal order. -/
def item_changed_statements (m : List (String × Statement)) (item : Item) :
    List Statement :=
  (item_statements item).filter (statement_changed m)

/-- `_detect_changed_claims`: changed statements paired with their owning
entity's id, in updated-map traversal order. -/
def detect_changed_claims (orig upd : Items) :
    Except String (List (String × Statement)) := do
  let m ← build_guid_map orig
  .ok (upd.flatMap (fun p =>
    (item_changed_statements m p.2).map (fun st => (p.2.id, st))))

/-- Replace (in place) the statement carrying `guid` inside an item. -/
def item_set_statement (item : Item) (guid : String) (st' : Statement) : Item :=
  { item with claims := some ((item.claims.getD []).map
      (fun p => (p.1, p.2.map (fun s => if s.id = guid then st' else s)))) }

/-- Set-semantics summary accumulation (`set.add`). -/
def addSummaries (m : List (String × List String)) (qid : String)
    (new : List String) : List (String × List String) :=
  let cur := (m.lookup qid).getD []
  let merged := new.foldl (fun acc s => if s ∈ acc then acc else acc ++ [s]) cur
  dictSet m qid merged

/-- One subject of the `process_graph` loop. -/
def process_subject (g : Graph) (pdt : List (String × String)) (u : Nat → String)
    (acc : Items × List (String × List String) × Nat) (subject : RDFNode) :
    Except String (Items × List (String × List String) × Nat) := do
  let (items, summaries, c) := acc
  match subject with
  | .bnode _ => pure acc
  | .lit _ => .error "assert: subject must be URIRef or BNode"
  | .uri ns localName =>
    if ns = "wd" then
      if ¬ strStartsWith localName "Q" then .error ("assert: qid " ++ localName)
      else
        match items.lookup localName with
        | none => .error ("KeyError: " ++ localName)
        | some item => do
          let r ← update_item g pdt item subject u c
          pure (dictSet items localName r.1,
            addSummaries summaries localName r.2.2.1, r.2.2.2)
    else if ns = "wds" then do
      let found ← find_claim_guid items localName
      let r ← update_statement g pdt found.1 subject found.2
      let items :=
        match items.lookup found.1 with
        | some item => dictSet items found.1 (item_set_statement item found.2.id r.1)
        | none => items
      pure (items, addSummaries summaries found.1 r.2, c)
    else
      pure acc

/-- String sorting (Python `sorted` on the summary set). -/
def sortStrings (l : List String) : List String :=
  l.foldr (fun s acc => insertSorted s acc) []
where
  insertSorted (s : String) : List String → List String
    | [] => [s]
    | x :: xs => if s ≤ x then s :: x :: xs else x :: insertSorted s xs

/-- An emitted edit: `(entity id, base revision, changed statements,
summary or none)`. -/
abbrev Edit := String × Int × List Statement × Option String

/-- Grouping the change-detector stream by entity id: a Python dict of
lists in first-encounter key order. -/
def group_changed (changed : List (String × Statement)) :
    List (String × List Statement) :=
  changed.foldl
    (fun acc p =>
      let cur := (acc.lookup p.1).getD []
      dictSet acc p.1 (cur ++ [p.2]))
    ([] : List (String × List Statement))

/-- `", ".join(sorted(summaries))`, `None` when the set is empty. -/
def summary_for (summaries : List (String × List String)) (qid : String) :
    Option String :=
  let s := (summaries.lookup qid).getD []
  if s.isEmpty then none else some (String.intercalate ", " (sortStrings s))

/-- One entity of the emission loop: skip blocked entities, check the
summary and non-emptiness asserts, read the base revision. -/
def emit_step (items : Items) (summaries : List (String × List String))
    (blocked : List String) (acc : List Edit) (p : String × List Statement) :
    Except String (List Edit) :=
  if p.1 ∈ blocked then pure acc
  else
    let summary := summary_for summaries p.1
    if summary = some "" then .error "assert: empty summary"
    else if p.2.isEmpty then .error "assert: no statements"
    else
      match items.lookup p.1 with
      | none => .error ("KeyError: " ++ p.1)
      | some item => pure (acc ++ [(p.1, item.lastrevid, p.2, summary)])

/-- The emission loop at the end of `process_graph`. -/
def emit_edits (items : Items) (summaries : List (String × List String))
    (blocked : List String) (changed : List (String × Statement)) :
    Except String (List Edit) :=
  (group_changed changed).foldlM (emit_step items summaries blocked)
    ([] : List Edit)

/-- `process_graph` after parsing and prefetching: the patch pass over the
graph subjects, change detection against the pristine snapshot, and
emission.  `pdt` and `items0` stand for the prefetched property datatypes
and entities; `u` supplies the fresh statement UUIDs. -/
def patch_pass (g : Graph) (pdt : List (String × String)) (items0 : Items)
    (u : Nat → String) (c0 : Nat) :
    Except String (Items × List (String × List String) × Nat) :=
  g.subjects.foldlM (process_subject g pdt u) (items0, [], c0)

/-- `process_graph` proper: patch pass, then detection, then emission. -/
def process_graph (g : Graph) (pdt : List (String × String)) (items0 : Items)
    (blocked : List String) (u : Nat → String) (c0 : Nat) :
    Except String (List Edit) := do
  let r ← patch_pass g pdt items0 u c0
  let changed ← detect_changed_claims items0 r.1
  emit_edits r.1 r.2.1 blocked changed

/-! ## Prefetch-layer batching (`_prefetch_items`,
`_prefetch_property_datatypes`, `mediawiki_api.wbgetentities`) -/

/-- The `wbgetentities` preconditions: its own `assert len(ids) > 0` and
`assert len(ids) <= 50`. -/
def wbgetentities_ok (ids : List String) : Prop :=
  0 < ids.length ∧ ids.length ≤ 50

instance (ids : List String) : Decidable (wbgetentities_ok ids) := by
  unfold wbgetentities_ok
  infer_instance

/-- `itertools.batched(l, n)` for `n ≥ 1` (fuel-structured so it computes;
the fuel `l.length` is enough because every step consumes at least one
element). -/
def batchedAux {α : Type} (fuel n : Nat) (l : List α) : List (List α) :=
  match fuel, l with
  | _, [] => []
  | 0, _ => []
  | fuel + 1, l => l.take n :: batchedAux fuel n (l.drop n)

def batched {α : Type} (n : Nat) (l : List α) : List (List α) :=
  batchedAux l.length n l

/-- The id batches `_prefetch_items` sends to `wbgetentities`: chunks of at
most 50 (the set-iteration order is abstracted into the list order). -/
def prefetch_items_calls (qids : List String) : List (List String) :=
  if qids.length = 0 then [] else batched 50 qids

/-- The id batches `_prefetch_property_datatypes` sends to `wbgetentities`:
one single call with every property id, sorted — no batching. -/
def prefetch_property_datatypes_calls (pids : List String) : List (List String) :=
  if pids.length = 0 then [] else [sortStrings pids]

/-! # Theorems for the claims -/

/-- C10: quantity resolution prefixes the amount with `"+"` unconditionally,
so a negative decimal — via an `xsd:decimal` literal or a structured
quantity node — resolves to an amount string beginning with `"+-"`
(`"-5"` becomes `"+-5"`). -/
theorem C10_negative_amount_double_sign (rest : List Char) :
    resolve_object_literal ⟨String.mk ('-' :: rest), none, some LitType.decimal⟩ =
      .ok (.quantity { amount := String.mk ('+' :: '-' :: rest), unit := "1" }) ∧
    resolve_object_bnode_quantity_value
      ⟨[(.bnode 0, ("wikibase", "quantityAmount"),
         .lit ⟨String.mk ('-' :: rest), none, some LitType.decimal⟩)]⟩
      (.bnode 0) =
      .ok (.quantity { amount := String.mk ('+' :: '-' :: rest), unit := "1" }) ∧
    String.mk ('+' :: '-' :: rest) = "+-" ++ String.mk rest := by
  refine ⟨rfl, ?_, rfl⟩
  cases rest <;> rfl

/-- The bounded quantity of the C2 counterexample (unit: the metre item
URI, so the unitless alias rule does not apply). -/
def qtyBounded : QuantityValue :=
  { amount := "+5", upperBound := some "+6"
    unit := "http://www.wikidata.org/entity/Q11573" }

/-- The boundless quantity of the C2 counterexample. -/
def qtyBoundless : QuantityValue :=
  { amount := "+5", unit := "http://www.wikidata.org/entity/Q11573" }

/-- C2 counterexample: `_datavalue_equals` is not symmetric on quantities
with bounds — the bounded value compared against the boundless one (same
non-unitless unit) is "equal", but swapping the arguments gives "not
equal", refuting "the comparison gives the same answer whichever of the two
values is passed first". -/
theorem C2_cex :
    datavalue_equals (.quantity qtyBounded) (.quantity qtyBoundless) = true ∧
    datavalue_equals (.quantity qtyBoundless) (.quantity qtyBounded) = false :=
  ⟨rfl, rfl⟩

/-- C2 amended: quantity value-equality compares amount only when the FIRST
argument has an `upperBound` and the second does not (lower bounds never
trigger the rule, and it is not symmetric); otherwise amount only when both
sides are unitless under the aliases `"1"` and
`https://www.wikidata.org/wiki/Q199`; otherwise full structural equality. -/
theorem C2_amended (a b : QuantityValue) :
    (a.upperBound.isSome = true → b.upperBound = none →
      datavalue_equals (.quantity a) (.quantity b) = (a.amount == b.amount)) ∧
    (¬ (a.upperBound.isSome = true ∧ b.upperBound = none) →
      quantityUnitless a = true → quantityUnitless b = true →
      datavalue_equals (.quantity a) (.quantity b) = (a.amount == b.amount)) ∧
    (¬ (a.upperBound.isSome = true ∧ b.upperBound = none) →
      ¬ (quantityUnitless a = true ∧ quantityUnitless b = true) →
      datavalue_equals (.quantity a) (.quantity b) = (a == b)) := by
  refine ⟨?_, ?_, ?_⟩
  · intro h1 h2
    simp [datavalue_equals, h1, h2]
  · intro hn h1 h2
    have hg : (a.upperBound.isSome && b.upperBound.isNone) = false := by
      cases hA : a.upperBound.isSome <;> cases hB : b.upperBound <;>
        simp_all [Option.isNone_iff_eq_none]
    simp [datavalue_equals, hg, h1, h2]
  · intro hn hu
    have hg : (a.upperBound.isSome && b.upperBound.isNone) = false := by
      cases hA : a.upperBound.isSome <;> cases hB : b.upperBound <;>
        simp_all [Option.isNone_iff_eq_none]
    have hu' : (quantityUnitless a && quantityUnitless b) = false := by
      cases hA : quantityUnitless a <;> cases hB : quantityUnitless b <;> simp_all
    simp [datavalue_equals, hg, hu']

/-- Witness for C2 amended at concrete inputs (first-argument-bounded
case). -/
theorem C2_amended_witness :
    (some "+6" : Option String).isSome = true ∧
    (none : Option String) = none ∧
    datavalue_equals
      (.quantity { amount := "+7", upperBound := some "+6", unit := "u" })
      (.quantity { amount := "+7", unit := "v" }) =
      (("+7" : String) == "+7") :=
  ⟨rfl, rfl,
    (C2_amended { amount := "+7", upperBound := some "+6", unit := "u" }
      { amount := "+7", unit := "v" }).1 rfl rfl⟩

/-- The 51 property ids of the C3 failing input. -/
def pids51 : List String :=
  (List.range 51).map (fun i => "P" ++ toString (i + 1))

/-- C3: a graph referencing 51 distinct property ids makes
`_prefetch_property_datatypes` call `wbgetentities` with all 51 ids in one
unbatched call, violating the collaborator's `len(ids) <= 50` assertion —
while `_prefetch_items` does batch (all its calls stay ≤ 50 even on the
same 51 ids). -/
theorem sortStrings_insertSorted_length (s : String) (l : List String) :
    (sortStrings.insertSorted s l).length = l.length + 1 := by
  induction l with
  | nil => rfl
  | cons x xs ih =>
    simp only [sortStrings.insertSorted]
    split <;> simp [ih]

theorem sortStrings_length (l : List String) :
    (sortStrings l).length = l.length := by
  induction l with
  | nil => rfl
  | cons x xs ih =>
    simp [sortStrings, List.foldr] at ih ⊢
    rw [sortStrings_insertSorted_length, ih]

theorem C3_property_prefetch_unbatched :
    prefetch_property_datatypes_calls pids51 = [sortStrings pids51] ∧
    ¬ wbgetentities_ok (sortStrings pids51) ∧
    (prefetch_items_calls pids51).all (fun b => b.length ≤ 50) = true := by
  refine ⟨rfl, ?_, by decide⟩
  intro h
  have h51 : (sortStrings pids51).length = 51 := by
    rw [sortStrings_length]
    decide
  rcases h with ⟨_, hle⟩
  omega

/-- The structured time node of C6: a blank node carrying only
`wikibase:timeValue`, every other sub-field (calendar included) absent. -/
def timeValueOnlyGraph (lex : String) : Graph :=
  ⟨[(.bnode 0, ("wikibase", "timeValue"), .lit ⟨lex, none, some LitType.dateTime⟩)]⟩

/-- What the structured (bnode) path produces for the C6 instant. -/
def timeValueBnodeResult : TimeValue :=
  { time := "+2012-10-30T00:00:00Z", timezone := 0, before := 0, after := 0
    precision := 11, calendarmodel := "https://www.wikidata.org/wiki/Q1985727" }

/-- What the literal path produces for the C6 instant. -/
def timeValueLiteralResult : TimeValue :=
  { time := "+2012-10-30T00:00:00Z", timezone := 0, before := 0, after := 0
    precision := 11, calendarmodel := "http://www.wikidata.org/entity/Q1985727" }

/-- C6 counterexample: resolving a calendar-less structured time node and a
plain `xsd:dateTime` literal of the same instant agree on time string,
precision 11 and zero offsets, but default DIFFERENT calendar-model URIs,
refuting "the two resolution paths agree on every defaulted field". -/
theorem C6_cex :
    resolve_object_bnode_time_value (timeValueOnlyGraph "2012-10-30T00:00:00Z")
      (.bnode 0) = .ok (.time timeValueBnodeResult) ∧
    resolve_object_literal ⟨"2012-10-30T00:00:00Z", none, some LitType.dateTime⟩ =
      .ok (.time timeValueLiteralResult) ∧
    timeValueBnodeResult.calendarmodel ≠ timeValueLiteralResult.calendarmodel :=
  ⟨rfl, rfl, by decide⟩

theorem strftimePlus_ne_empty (dt : PyDateTime) : strftimePlus dt ≠ "" := by
  unfold strftimePlus
  intro h
  have hl := congrArg String.length h
  simp [String.length_append] at hl
  exact absurd hl.1 (by decide)

/-- The defaults of the structured (bnode) time path. -/
def bnodeTimeDefaults (t : String) : TimeValue :=
  { time := t, timezone := 0, before := 0, after := 0, precision := 11
    calendarmodel := "https://www.wikidata.org/wiki/Q1985727" }

/-- The defaults of the literal time path. -/
def literalTimeDefaults (t : String) : TimeValue :=
  { time := t, timezone := 0, before := 0, after := 0, precision := 11
    calendarmodel := "http://www.wikidata.org/entity/Q1985727" }

/-- C6 amended: a structured time node with only `wikibase:timeValue`
resolves with the same time string, precision 11 and zero
timezone/before/after as the literal path, but the two paths default
different calendar-model URIs (`https://www.wikidata.org/wiki/Q1985727`
versus `http://www.wikidata.org/entity/Q1985727`). -/
theorem C6_amended (lex : String) (dt : PyDateTime)
    (h : parseDateTime lex = some dt) :
    resolve_object_bnode_time_value (timeValueOnlyGraph lex) (.bnode 0) =
      .ok (.time (bnodeTimeDefaults (strftimePlus dt))) ∧
    resolve_object_literal ⟨lex, none, some LitType.dateTime⟩ =
      .ok (.time (literalTimeDefaults (strftimePlus dt))) ∧
    (bnodeTimeDefaults (strftimePlus dt)).time =
      (literalTimeDefaults (strftimePlus dt)).time ∧
    (bnodeTimeDefaults (strftimePlus dt)).precision =
      (literalTimeDefaults (strftimePlus dt)).precision ∧
    (bnodeTimeDefaults (strftimePlus dt)).timezone =
      (literalTimeDefaults (strftimePlus dt)).timezone ∧
    (bnodeTimeDefaults (strftimePlus dt)).before =
      (literalTimeDefaults (strftimePlus dt)).before ∧
    (bnodeTimeDefaults (strftimePlus dt)).after =
      (literalTimeDefaults (strftimePlus dt)).after ∧
    (bnodeTimeDefaults (strftimePlus dt)).calendarmodel ≠
      (literalTimeDefaults (strftimePlus dt)).calendarmodel := by
  have hne : lex ≠ "" := by
    intro he
    rw [he] at h
    have h0 : parseDateTime "" = none := rfl
    rw [h0] at h
    exact Option.noConfusion h
  refine ⟨?_, ?_, rfl, rfl, rfl, rfl, rfl, ?_⟩
  case refine_3 =>
    show ("https://www.wikidata.org/wiki/Q1985727" : String) ≠
      "http://www.wikidata.org/entity/Q1985727"
    decide
  · have L1 : (timeValueOnlyGraph lex).literal (.bnode 0) ("wikibase", "timeValue") =
        some ⟨lex, none, some LitType.dateTime⟩ := rfl
    have L2 : (timeValueOnlyGraph lex).literal (.bnode 0) ("wikibase", "timePrecision") =
        none := rfl
    have L3 : (timeValueOnlyGraph lex).literal (.bnode 0) ("wikibase", "timeTimezone") =
        none := rfl
    have L4 : (timeValueOnlyGraph lex).value (.bnode 0) ("wikibase", "timeCalendarModel") =
        none := rfl
    unfold resolve_object_bnode_time_value
    rw [L1, L2, L3, L4]
    simp only [litTruthy, if_neg hne, h]
    simp [strftimePlus_ne_empty dt, bnodeTimeDefaults]
  · have E : resolve_object_literal ⟨lex, none, some LitType.dateTime⟩ =
        (match parseDateTime lex with
         | some dtv => .ok (.time (literalTimeDefaults (strftimePlus dtv)))
         | none => .error "invalid datetime literal") := rfl
    rw [E, h]

/-- Witness for C6 amended at a concrete instant. -/
theorem C6_amended_witness :
    parseDateTime "2013-05-04T00:00:00Z" = some ⟨2013, 5, 4, 0, 0, 0⟩ ∧
    resolve_object_bnode_time_value (timeValueOnlyGraph "2013-05-04T00:00:00Z")
      (.bnode 0) =
      .ok (.time (bnodeTimeDefaults (strftimePlus ⟨2013, 5, 4, 0, 0, 0⟩))) :=
  ⟨rfl, (C6_amended "2013-05-04T00:00:00Z" ⟨2013, 5, 4, 0, 0, 0⟩ rfl).1⟩

theorem lookup_append_none {β : Type} (l : List (String × β)) (k : String) (v : β)
    (h : l.lookup k = none) : (l ++ [(k, v)]).lookup k = some v := by
  induction l with
  | nil => simp [List.lookup]
  | cons a l ih =>
    simp only [List.lookup, List.cons_append] at h ⊢
    cases hk : (k == a.1) with
    | true => simp only [hk] at h; exact Option.noConfusion h
    | false => simp only [hk] at h ⊢; exact ih h

/-- Materializing the claims bucket does not change its contents. -/
theorem item_property_claims_ensure (item : Item) (pid : String) :
    item_property_claims (item_ensure_property_claims item pid) pid =
      item_property_claims item pid := by
  unfold item_property_claims item_ensure_property_claims
  cases h : (item.claims.getD []).lookup pid with
  | some cs => simp [h]
  | none => simp [h, lookup_append_none _ _ _ h]

/-- A value found on a non-deprecated statement is found at any rank. -/
theorem contains_of_contains_direct (sts : List Statement) (snak : Snak)
    (h : statements_contains_direct_snak sts snak = true) :
    statements_contains_snak sts snak = true := by
  simp only [statements_contains_direct_snak, statements_contains_snak,
    List.any_eq_true] at h ⊢
  obtain ⟨st, hmem, hp⟩ := h
  rw [Bool.and_eq_true] at hp
  exact ⟨st, hmem, hp.2⟩

/-- The single-triple direct-value document of C5. -/
def wdtOnlyGraph (q pid : String) (o : RDFNode) : Graph :=
  ⟨[(.uri "wd" q, ("wdt", pid), o)]⟩

/-- C5: for a direct-value (`wdt:`) triple — if no statement under the
property holds a value-equal value at any rank, a fresh normal-rank
statement is appended with no warning; if the value exists only on
deprecated-rank statements, a warning is logged and the statements are left
unchanged; if it exists on a non-deprecated statement, nothing changes and
nothing is warned. -/
theorem C5_direct_value (item : Item) (pid : String) (o : RDFNode)
    (pdt : List (String × String)) (u : Nat → String) (c : Nat) (snak : Snak)
    (hobj : ∀ n, o ≠ .bnode n)
    (hpid : strStartsWith pid "P" = true)
    (hsnak : resolve_snak (wdtOnlyGraph "Q1" pid o) pdt pid o = .ok snak) :
    (statements_contains_snak (item_property_claims item pid) snak = false →
      update_item (wdtOnlyGraph "Q1" pid o) pdt item (.uri "wd" "Q1") u c =
        .ok (item_set_property_claims (item_ensure_property_claims item pid) pid
              (item_property_claims item pid ++
                [{ id := new_statement_id item.id (u c), rank := .normal,
                   mainsnak := snak }]),
          [], [], c + 1)) ∧
    (statements_contains_snak (item_property_claims item pid) snak = true →
     statements_contains_direct_snak (item_property_claims item pid) snak = false →
      update_item (wdtOnlyGraph "Q1" pid o) pdt item (.uri "wd" "Q1") u c =
        .ok (item_ensure_property_claims item pid,
          [Warning.deprecatedSnak item.id pid], [], c)) ∧
    (statements_contains_direct_snak (item_property_claims item pid) snak = true →
      update_item (wdtOnlyGraph "Q1" pid o) pdt item (.uri "wd" "Q1") u c =
        .ok (item_ensure_property_claims item pid, [], [], c)) := by
  have hsum : (wdtOnlyGraph "Q1" pid o).literal (.uri "wd" "Q1")
      ("wikidatabots", "editSummary") = none := by
    simp [wdtOnlyGraph, Graph.literal, Graph.value, Graph.objects, dedupFirst,
      dedupFirstAux, List.filterMap]
  have hpo : (wdtOnlyGraph "Q1" pid o).predicateObjects (.uri "wd" "Q1") =
      [(("wdt", pid), o)] := by
    simp [wdtOnlyGraph, Graph.predicateObjects, dedupFirst, dedupFirstAux,
      List.filterMap]
  refine ⟨?_, ?_, ?_⟩
  · intro h1
    unfold update_item
    rw [hsum, hpo]
    simp only [List.foldlM]
    cases o with
    | bnode n => exact absurd rfl (hobj n)
    | uri ns localName =>
      simp [update_item_step, hpid, hsnak, item_property_claims_ensure, h1,
        bind, Except.bind, pure, Except.pure, litTruthy]
    | lit l =>
      simp [update_item_step, hpid, hsnak, item_property_claims_ensure, h1,
        bind, Except.bind, pure, Except.pure, litTruthy]
  · intro h1 h2
    unfold update_item
    rw [hsum, hpo]
    simp only [List.foldlM]
    cases o with
    | bnode n => exact absurd rfl (hobj n)
    | uri ns localName =>
      simp [update_item_step, hpid, hsnak, item_property_claims_ensure, h1, h2,
        bind, Except.bind, pure, Except.pure, litTruthy]
    | lit l =>
      simp [update_item_step, hpid, hsnak, item_property_claims_ensure, h1, h2,
        bind, Except.bind, pure, Except.pure, litTruthy]
  · intro h1
    have h0 := contains_of_contains_direct _ _ h1
    unfold update_item
    rw [hsum, hpo]
    simp only [List.foldlM]
    cases o with
    | bnode n => exact absurd rfl (hobj n)
    | uri ns localName =>
      simp [update_item_step, hpid, hsnak, item_property_claims_ensure, h1, h0,
        bind, Except.bind, pure, Except.pure, litTruthy]
    | lit l =>
      simp [update_item_step, hpid, hsnak, item_property_claims_ensure, h1, h0,
        bind, Except.bind, pure, Except.pure, litTruthy]

/-- Witness for C5 at a concrete item and triple (the append case). -/
theorem C5_direct_value_witness :
    statements_contains_snak
      (item_property_claims { id := "Q1", lastrevid := 1 } "P370")
      (.value "P370" "string" (.string "x") none) = false ∧
    update_item (wdtOnlyGraph "Q1" "P370" (.lit ⟨"x", none, none⟩))
      [("P370", "string")] { id := "Q1", lastrevid := 1 } (.uri "wd" "Q1")
      (fun _ => "fresh") 0 =
      .ok (item_set_property_claims
            (item_ensure_property_claims { id := "Q1", lastrevid := 1 } "P370")
            "P370"
            (item_property_claims { id := "Q1", lastrevid := 1 } "P370" ++
              [{ id := new_statement_id "Q1" "fresh", rank := .normal,
                 mainsnak := .value "P370" "string" (.string "x") none }]),
        [], [], 1) :=
  ⟨rfl,
    (C5_direct_value { id := "Q1", lastrevid := 1 } "P370" (.lit ⟨"x", none, none⟩)
      [("P370", "string")] (fun _ => "fresh") 0
      (.value "P370" "string" (.string "x") none)
      (fun _ h => nomatch h) rfl rfl).1 rfl⟩

/-- The single-triple qualifier-deletion document of C8/C9: a statement
subject whose only predicate is `pqe:<pid>` with an explicitly empty blank
node object. -/
def pqeEmptyGraph (pid : String) : Graph :=
  ⟨[(.uri "wds" "Q1-g", ("pqe", pid), .bnode 0)]⟩

theorem C9_delete_absent_qualifier (st : Statement) (pid : String)
    (order : List String)
    (hpid : strStartsWith pid "P" = true)
    (horder : st.qualifiersOrder = some order)
    (habsent : pid ∉ order) :
    update_statement (pqeEmptyGraph pid) [] "Q1" (.uri "wds" "Q1-g") st =
      .error "ValueError: list.remove(x): x not in list" := by
  have hpo : (pqeEmptyGraph pid).predicateObjects (.uri "wds" "Q1-g") =
      [(("pqe", pid), .bnode 0)] := by
    simp [pqeEmptyGraph, Graph.predicateObjects, dedupFirst, dedupFirstAux,
      List.filterMap]
  have hrank : resolve_statement_rank (pqeEmptyGraph pid) (.uri "wds" "Q1-g") =
      .ok none := rfl
  have hsn : ∀ prop, resolve_statement_snak (pqeEmptyGraph pid) []
      (.uri "wds" "Q1-g") prop = .ok none := fun _ => rfl
  have hrefs : resolve_statement_references (pqeEmptyGraph pid) []
      (.uri "wds" "Q1-g") = .ok [] := rfl
  have hxrefs : resolve_statement_exclusive_references (pqeEmptyGraph pid) []
      (.uri "wds" "Q1-g") = .ok [] := rfl
  have hsum : (pqeEmptyGraph pid).literal (.uri "wds" "Q1-g")
      ("wikidatabots", "editSummary") = none := rfl
  have hempty : (pqeEmptyGraph pid).emptyNode (.bnode 0) = true := rfl
  unfold update_statement
  rw [hpo]
  simp only [List.foldlM]
  simp only [update_statement_qualifier_step]
  have hdel : delete_statement_property_qualifiers st pid =
      .error "ValueError: list.remove(x): x not in list" := by
    unfold delete_statement_property_qualifiers
    rw [hpid]
    cases hq : st.qualifiers with
    | none => simp [horder, habsent]
    | some qs =>
      cases hl : qs.lookup pid with
      | none => simp [hl, horder, habsent]
      | some snaks => simp [hl, horder, habsent]
  simp [hpid, hdel, hrank, hsn, hrefs, hxrefs, hsum, hempty, bind, Except.bind,
    pure, Except.pure, show strStartsWith "Q1" "Q" = true from rfl]

theorem lookup_dictDel {β : Type} (l : List (String × β)) (k : String) :
    (dictDel l k).lookup k = none := by
  induction l with
  | nil => rfl
  | cons a l ih =>
    by_cases hk : a.1 = k
    · simp [dictDel, hk] at ih ⊢
      exact ih
    · simp only [dictDel, List.filter] at ih ⊢
      have : (a.1 ≠ k : Bool) = true := by simpa using hk
      rw [this]
      simp only [List.lookup]
      have hkb : (k == a.1) = false := by
        rw [beq_eq_false_iff_ne]
        exact fun he => hk he.symm
      rw [hkb]
      exact ih

theorem erase_ne_of_mem {l : List String} {a : String} (h : a ∈ l) :
    l.erase a ≠ l := by
  intro heq
  have hlen := List.length_erase_of_mem h
  rw [heq] at hlen
  have hpos := List.length_pos_of_mem h
  omega

theorem C8_exclusive_qualifier_empty_delete (st : Statement) (pid : String)
    (qs : List (String × List Snak)) (order : List String)
    (hpid : strStartsWith pid "P" = true)
    (hq : st.qualifiers = some qs)
    (hhas : (qs.lookup pid).isSome = true)
    (horder : st.qualifiersOrder = some order)
    (hmem : pid ∈ order)
    (hnodup : order.Nodup)
    (hid : st.id ≠ "") :
    update_statement (pqeEmptyGraph pid) [] "Q1" (.uri "wds" "Q1-g") st =
      .ok ({ st with qualifiers := some (dictDel qs pid)
                     qualifiersOrder := some (order.erase pid) }, []) ∧
    (dictDel qs pid).lookup pid = none ∧
    pid ∉ order.erase pid ∧
    statement_eq_py
      { st with qualifiers := some (dictDel qs pid)
                qualifiersOrder := some (order.erase pid) } st = false ∧
    detect_changed_claims
      [("Q1", { id := "Q1", lastrevid := 1, claims := some [("P1", [st])] })]
      [("Q1", { id := "Q1", lastrevid := 1, claims := some [("P1",
        [{ st with qualifiers := some (dictDel qs pid)
                   qualifiersOrder := some (order.erase pid) }])] })] =
      .ok [("Q1", { st with qualifiers := some (dictDel qs pid)
                            qualifiersOrder := some (order.erase pid) })] := by
  have hrank : resolve_statement_rank (pqeEmptyGraph pid) (.uri "wds" "Q1-g") =
      .ok none := rfl
  have hsn : ∀ prop, resolve_statement_snak (pqeEmptyGraph pid) []
      (.uri "wds" "Q1-g") prop = .ok none := fun _ => rfl
  have hrefs : resolve_statement_references (pqeEmptyGraph pid) []
      (.uri "wds" "Q1-g") = .ok [] := rfl
  have hxrefs : resolve_statement_exclusive_references (pqeEmptyGraph pid) []
      (.uri "wds" "Q1-g") = .ok [] := rfl
  have hsum : (pqeEmptyGraph pid).literal (.uri "wds" "Q1-g")
      ("wikidatabots", "editSummary") = none := rfl
  have hempty : (pqeEmptyGraph pid).emptyNode (.bnode 0) = true := rfl
  have hpo : (pqeEmptyGraph pid).predicateObjects (.uri "wds" "Q1-g") =
      [(("pqe", pid), .bnode 0)] := by
    simp [pqeEmptyGraph, Graph.predicateObjects, dedupFirst, dedupFirstAux,
      List.filterMap]
  have hdel : delete_statement_property_qualifiers st pid =
      .ok { st with qualifiers := some (dictDel qs pid)
                    qualifiersOrder := some (order.erase pid) } := by
    unfold delete_statement_property_qualifiers
    rw [hpid]
    cases hl : qs.lookup pid with
    | none => rw [hl] at hhas; exact Bool.noConfusion hhas
    | some snaks => simp [hq, hl, horder, hmem]
  have hneq : statement_eq_py
      { st with qualifiers := some (dictDel qs pid)
                qualifiersOrder := some (order.erase pid) } st = false := by
    have hne : ((order.erase pid) == order) = false := by
      rw [beq_eq_false_iff_ne]
      exact erase_ne_of_mem hmem
    simp [statement_eq_py, optEqBy, horder, hne]
  refine ⟨?_, lookup_dictDel qs pid, ?_, hneq, ?_⟩
  · unfold update_statement
    rw [hpo]
    simp only [List.foldlM]
    simp only [update_statement_qualifier_step]
    simp [hpid, hdel, hrank, hsn, hrefs, hxrefs, hsum, hempty, bind, Except.bind,
      pure, Except.pure, litTruthy, show strStartsWith "Q1" "Q" = true from rfl]
  · rw [List.Nodup.mem_erase_iff hnodup]
    simp
  · simp [detect_changed_claims, build_guid_map, item_changed_statements,
      statement_changed, item_statements, dictSet, hid, hneq, bind,
      Except.bind, pure, Except.pure]

/-- Witness for C9 at a concrete statement whose qualifiers-order lacks the
pid. -/
theorem C9_delete_absent_qualifier_witness :
    strStartsWith "P2" "P" = true ∧
    ({ id := "Q1$g", rank := .normal,
       mainsnak := .value "P1" "string" (.string "x") none,
       qualifiersOrder := some ["P3"] } : Statement).qualifiersOrder =
      some ["P3"] ∧
    ("P2" : String) ∉ (["P3"] : List String) ∧
    update_statement (pqeEmptyGraph "P2") [] "Q1" (.uri "wds" "Q1-g")
      { id := "Q1$g", rank := .normal,
        mainsnak := .value "P1" "string" (.string "x") none,
        qualifiersOrder := some ["P3"] } =
      .error "ValueError: list.remove(x): x not in list" :=
  ⟨rfl, rfl, by decide,
    C9_delete_absent_qualifier
      { id := "Q1$g", rank := .normal,
        mainsnak := .value "P1" "string" (.string "x") none,
        qualifiersOrder := some ["P3"] }
      "P2" ["P3"] rfl rfl (by decide)⟩

/-- Witness for C8 at a concrete statement carrying the qualifier. -/
theorem C8_exclusive_qualifier_empty_delete_witness :
    ({ id := "Q1$g", rank := .normal,
       mainsnak := .value "P1" "string" (.string "x") none,
       qualifiers := some [("P2", [.value "P2" "string" (.string "q") none])],
       qualifiersOrder := some ["P2"] } : Statement).qualifiers =
      some [("P2", [.value "P2" "string" (.string "q") none])] ∧
    update_statement (pqeEmptyGraph "P2") [] "Q1" (.uri "wds" "Q1-g")
      { id := "Q1$g", rank := .normal,
        mainsnak := .value "P1" "string" (.string "x") none,
        qualifiers := some [("P2", [.value "P2" "string" (.string "q") none])],
        qualifiersOrder := some ["P2"] } =
      .ok ({ id := "Q1$g", rank := .normal,
             mainsnak := .value "P1" "string" (.string "x") none,
             qualifiers := some (dictDel
               [("P2", [.value "P2" "string" (.string "q") none])] "P2")
             qualifiersOrder := some ((["P2"] : List String).erase "P2") }, []) :=
  ⟨rfl,
    (C8_exclusive_qualifier_empty_delete
      { id := "Q1$g", rank := .normal,
        mainsnak := .value "P1" "string" (.string "x") none,
        qualifiers := some [("P2", [.value "P2" "string" (.string "q") none])],
        qualifiersOrder := some ["P2"] }
      "P2" [("P2", [.value "P2" "string" (.string "q") none])] ["P2"]
      rfl rfl rfl rfl (by decide) (by decide) (by decide)).1⟩

/-- The C4 counterexample document: one direct-value triple on an entity
that the prefetched map does not contain. -/
def missingItemGraph : Graph :=
  ⟨[(.uri "wd" "Q5", ("wdt", "P1"), .lit ⟨"x", none, none⟩)]⟩

/-- C4 counterexample: with the entity map empty (the entity is missing),
`process_graph` fails with a `KeyError` instead of skipping the subject
with a warning and continuing — the whole run does fail. -/
theorem C4_cex :
    process_graph missingItemGraph [("P1", "string")] [] [] (fun _ => "f") 0 =
      .error "KeyError: Q5" := rfl

/-- C4 amended: a graph subject addressing an entity absent from the
prefetched map aborts the whole `process_graph` run with a lookup failure
(`items[qid]` raising `KeyError`); no skip-with-warning path exists. -/
theorem C4_amended (g : Graph) (pdt : List (String × String)) (items : Items)
    (blocked : List String) (u : Nat → String) (c0 : Nat) (q : String)
    (rest : List RDFNode)
    (hsub : g.subjects = .uri "wd" q :: rest)
    (hq : strStartsWith q "Q" = true)
    (hlook : items.lookup q = none) :
    process_graph g pdt items blocked u c0 = .error ("KeyError: " ++ q) := by
  unfold process_graph patch_pass
  rw [hsub]
  simp only [List.foldlM]
  simp [process_subject, hq, hlook, bind, Except.bind]

/-- Witness for C4 amended at a concrete graph and empty entity map. -/
theorem C4_amended_witness :
    (⟨[(.uri "wd" "Q7", ("wdt", "P2"), .lit ⟨"y", none, none⟩)]⟩ : Graph).subjects =
      .uri "wd" "Q7" :: [] ∧
    strStartsWith "Q7" "Q" = true ∧
    (([] : Items).lookup "Q7") = none ∧
    process_graph ⟨[(.uri "wd" "Q7", ("wdt", "P2"), .lit ⟨"y", none, none⟩)]⟩
      [("P2", "string")] [] [] (fun _ => "f") 0 = .error ("KeyError: " ++ "Q7") :=
  ⟨rfl, rfl, rfl,
    C4_amended ⟨[(.uri "wd" "Q7", ("wdt", "P2"), .lit ⟨"y", none, none⟩)]⟩
      [("P2", "string")] [] [] (fun _ => "f") 0 "Q7" [] rfl rfl rfl⟩

theorem lookup_append_right {β : Type} (l₁ l₂ : List (String × β)) (k : String)
    (h : l₁.lookup k = none) : (l₁ ++ l₂).lookup k = l₂.lookup k := by
  induction l₁ with
  | nil => rfl
  | cons a l ih =>
    simp only [List.lookup, List.cons_append] at h ⊢
    cases hk : (k == a.1) with
    | true => rw [hk] at h; exact Option.noConfusion h
    | false => rw [hk] at h; exact ih h

theorem lookup_cons_self {β : Type} (l : List (String × β)) (k : String) (v : β) :
    (((k, v) :: l).lookup k) = some v := by
  simp [List.lookup]

theorem lookup_keys_none {β : Type} (l : List (String × β)) (k : String)
    (h : l.lookup k = none) : ∀ p ∈ l, p.1 ≠ k := by
  induction l with
  | nil => intro p hp; exact absurd hp (List.not_mem_nil p)
  | cons a l ih =>
    intro p hp
    simp only [List.lookup] at h
    cases hk : (k == a.1) with
    | true => rw [hk] at h; exact Option.noConfusion h
    | false =>
      rw [hk] at h
      rcases List.mem_cons.mp hp with he | ht
      · subst he
        rw [beq_eq_false_iff_ne] at hk
        exact fun hq => hk hq.symm
      · exact ih h p ht

theorem dictSet_fresh {β : Type} (l : List (String × β)) (k : String) (v : β)
    (h : l.lookup k = none) : dictSet l k v = l ++ [(k, v)] := by
  induction l with
  | nil => rfl
  | cons a t ih =>
    simp only [List.lookup] at h
    cases hk : (k == a.1) with
    | true => rw [hk] at h; exact Option.noConfusion h
    | false =>
      rw [hk] at h
      have hne : a.1 ≠ k := by
        rw [beq_eq_false_iff_ne] at hk
        exact fun he => hk he.symm
      simp only [dictSet, if_neg hne, List.cons_append]
      rw [ih h]

theorem dictSet_last {β : Type} (l : List (String × β)) (k : String) (pre v : β)
    (h : l.lookup k = none) : dictSet (l ++ [(k, pre)]) k v = l ++ [(k, v)] := by
  induction l with
  | nil => simp [dictSet]
  | cons a t ih =>
    simp only [List.lookup] at h
    cases hk : (k == a.1) with
    | true => rw [hk] at h; exact Option.noConfusion h
    | false =>
      rw [hk] at h
      have hne : a.1 ≠ k := by
        rw [beq_eq_false_iff_ne] at hk
        exact fun he => hk he.symm
      simp only [List.cons_append, dictSet, if_neg hne]
      show a :: dictSet (t ++ [(k, pre)]) k v = a :: (t ++ [(k, v)])
      rw [ih h]

/-- One step of the change-grouping fold. -/
def group_step (acc : List (String × List Statement)) (p : String × Statement) :
    List (String × List Statement) :=
  dictSet acc p.1 (((acc.lookup p.1).getD []) ++ [p.2])

theorem group_changed_eq_foldl (cs : List (String × Statement)) :
    group_changed cs = cs.foldl group_step [] := rfl

theorem group_chunk_cont (sts : List Statement) (acc : List (String × List Statement))
    (k : String) (pre : List Statement) (h : acc.lookup k = none) :
    (sts.map (fun st => (k, st))).foldl group_step (acc ++ [(k, pre)]) =
      acc ++ [(k, pre ++ sts)] := by
  induction sts generalizing pre with
  | nil => simp
  | cons st rest ih =>
    simp only [List.map, List.foldl]
    have hstep : group_step (acc ++ [(k, pre)]) (k, st) = acc ++ [(k, pre ++ [st])] := by
      unfold group_step
      rw [lookup_append_right _ _ _ h, lookup_cons_self]
      simp only [Option.getD_some]
      exact dictSet_last acc k pre (pre ++ [st]) h
    rw [hstep, ih (pre ++ [st])]
    simp

theorem group_chunk (sts : List Statement) (acc : List (String × List Statement))
    (k : String) (h : acc.lookup k = none) (hne : sts ≠ []) :
    (sts.map (fun st => (k, st))).foldl group_step acc = acc ++ [(k, sts)] := by
  cases sts with
  | nil => exact absurd rfl hne
  | cons st rest =>
    simp only [List.map, List.foldl]
    have hstep : group_step acc (k, st) = acc ++ [(k, [st])] := by
      unfold group_step
      rw [h]
      simpa using dictSet_fresh acc k [st] h
    rw [hstep, group_chunk_cont rest acc k [st] h]
    simp

theorem group_flatMap (m : List (String × Statement)) (upd : Items)
    (acc : List (String × List Statement))
    (hdis : ∀ p ∈ upd, acc.lookup p.2.id = none)
    (hnodup : (upd.map (fun p => p.2.id)).Nodup) :
    (upd.flatMap (fun p =>
      (item_changed_statements m p.2).map (fun st => (p.2.id, st)))).foldl
        group_step acc =
      acc ++ upd.filterMap (fun p =>
        if item_changed_statements m p.2 = [] then none
        else some (p.2.id, item_changed_statements m p.2)) := by
  induction upd generalizing acc with
  | nil => simp
  | cons p rest ih =>
    simp only [List.flatMap_cons, List.foldl_append, List.filterMap_cons]
    have hnodup' : (rest.map (fun p => p.2.id)).Nodup := (List.nodup_cons.mp hnodup).2
    by_cases hc : item_changed_statements m p.2 = []
    · rw [hc]
      simp only [List.map_nil, List.foldl_nil, if_pos rfl]
      exact ih acc (fun q hq => hdis q (List.mem_cons_of_mem p hq)) hnodup'
    · rw [if_neg hc]
      rw [group_chunk _ acc p.2.id (hdis p (List.mem_cons_self p rest)) hc]
      have hdis' : ∀ q ∈ rest, (acc ++ [(p.2.id, item_changed_statements m p.2)]).lookup q.2.id = none := by
        intro q hq
        rw [lookup_append_right _ _ _ (hdis q (List.mem_cons_of_mem p hq))]
        have hqne : q.2.id ≠ p.2.id := by
          intro he
          have hni := (List.nodup_cons.mp hnodup).1
          have hmm : q.2.id ∈ rest.map (fun r => r.2.id) :=
            List.mem_map_of_mem (fun r => r.2.id) hq
          rw [he] at hmm
          exact hni hmm
        simp [List.lookup, beq_eq_false_iff_ne.mpr hqne]
      rw [ih _ hdis' hnodup']
      simp

theorem emit_fold_ok (items : Items) (summaries : List (String × List String))
    (blocked : List String) (grouped : List (String × List Statement))
    (acc edits : List Edit)
    (h : grouped.foldlM (emit_step items summaries blocked) acc = .ok edits) :
    edits = acc ++ grouped.filterMap (fun p =>
      if p.1 ∈ blocked then none
      else
        match items.lookup p.1 with
        | some item => some (p.1, item.lastrevid, p.2, summary_for summaries p.1)
        | none => none) := by
  induction grouped generalizing acc with
  | nil =>
    simp only [List.foldlM] at h
    cases h
    simp
  | cons p rest ih =>
    simp only [List.foldlM] at h
    by_cases hb : p.1 ∈ blocked
    · rw [List.filterMap_cons]
      simp only [if_pos hb]
      have hstep : emit_step items summaries blocked acc p = pure acc := by
        unfold emit_step
        rw [if_pos hb]
      rw [hstep] at h
      exact ih acc h
    · by_cases hs : summary_for summaries p.1 = some ""
      · have hstep : emit_step items summaries blocked acc p =
            .error "assert: empty summary" := by
          unfold emit_step
          rw [if_neg hb]
          simp [hs]
        rw [hstep] at h
        simp [bind, Except.bind] at h
      · by_cases he : p.2.isEmpty
        · have hstep : emit_step items summaries blocked acc p =
              .error "assert: no statements" := by
            unfold emit_step
            rw [if_neg hb]
            simp [hs, he]
          rw [hstep] at h
          simp [bind, Except.bind] at h
        · cases hl : items.lookup p.1 with
          | none =>
            have hstep : emit_step items summaries blocked acc p =
                .error ("KeyError: " ++ p.1) := by
              unfold emit_step
              rw [if_neg hb]
              simp [hs, he, hl]
            rw [hstep] at h
            simp [bind, Except.bind] at h
          | some item =>
            have hstep : emit_step items summaries blocked acc p =
                pure (acc ++ [(p.1, item.lastrevid, p.2, summary_for summaries p.1)]) := by
              unfold emit_step
              rw [if_neg hb]
              simp [hs, he, hl]
            rw [hstep] at h
            rw [List.filterMap_cons]
            simp only [if_neg hb, hl]
            rw [ih _ h]
            simp

theorem lookup_mem_self {β : Type} (l : List (String × β))
    (hn : (l.map Prod.fst).Nodup) (p : String × β) (hp : p ∈ l) :
    l.lookup p.1 = some p.2 := by
  induction l with
  | nil => exact absurd hp (List.not_mem_nil p)
  | cons a l ih =>
    rcases List.mem_cons.mp hp with he | ht
    · subst he
      simp [List.lookup]
    · have hne : p.1 ≠ a.1 := by
        intro he
        have := (List.nodup_cons.mp hn).1
        rw [← he] at this
        exact this (List.mem_map_of_mem Prod.fst ht)
      simp only [List.lookup]
      rw [beq_eq_false_iff_ne.mpr hne]
      exact ih (List.nodup_cons.mp hn).2 ht

theorem filterMap_congr_mem {α β : Type} (l : List α) (f g : α → Option β)
    (h : ∀ a ∈ l, f a = g a) : l.filterMap f = l.filterMap g := by
  induction l with
  | nil => rfl
  | cons a l ih =>
    rw [List.filterMap_cons, List.filterMap_cons,
      h a (List.mem_cons_self a l), ih (fun b hb => h b (List.mem_cons_of_mem a hb))]

/-- C7 amended: `process_graph` emits its tuples in the order entities
appear in the (prefetched, then updated) items map — not in graph-scan
order — restricted to unblocked entities with at least one changed
statement; within each tuple the statements are the item's changed
statements in claims-traversal order. -/
theorem C7_amended (g : Graph) (pdt : List (String × String)) (items0 : Items)
    (blocked : List String) (u : Nat → String) (c0 : Nat)
    (r : Items × List (String × List String) × Nat)
    (m : List (String × Statement)) (edits : List Edit)
    (hpp : patch_pass g pdt items0 u c0 = .ok r)
    (hm : build_guid_map items0 = .ok m)
    (hrun : process_graph g pdt items0 blocked u c0 = .ok edits)
    (hnodupIds : (r.1.map (fun p => p.2.id)).Nodup)
    (hnodupKeys : (r.1.map Prod.fst).Nodup)
    (hids : ∀ p ∈ r.1, p.2.id = p.1) :
    edits = r.1.filterMap (fun p =>
      if item_changed_statements m p.2 = [] then none
      else if p.1 ∈ blocked then none
      else some (p.1, p.2.lastrevid, item_changed_statements m p.2,
        summary_for r.2.1 p.1)) := by
  unfold process_graph at hrun
  rw [hpp] at hrun
  simp only [bind, Except.bind] at hrun
  unfold detect_changed_claims at hrun
  rw [hm] at hrun
  simp only [bind, Except.bind] at hrun
  unfold emit_edits at hrun
  rw [group_changed_eq_foldl] at hrun
  rw [group_flatMap m r.1 [] (fun p _ => rfl) hnodupIds] at hrun
  rw [List.nil_append] at hrun
  have hed := emit_fold_ok r.1 r.2.1 blocked _ [] edits hrun
  rw [List.nil_append, List.filterMap_filterMap] at hed
  rw [hed]
  apply filterMap_congr_mem
  intro p hp
  by_cases hc : item_changed_statements m p.2 = []
  · simp [hc]
  · have hid := hids p hp
    rw [if_neg hc, hid, Option.some_bind]
    by_cases hb : p.1 ∈ blocked
    · simp [hb]
    · rw [if_neg hb]
      rw [lookup_mem_self r.1 hnodupKeys p hp]
      simp [hc, hb]

/-- The C7 counterexample document: Q1's triple precedes Q2's in the graph. -/
def c7Graph : Graph :=
  ⟨[(.uri "wd" "Q1", ("wdt", "P1"), .lit ⟨"a", none, none⟩),
    (.uri "wd" "Q2", ("wdt", "P1"), .lit ⟨"b", none, none⟩)]⟩

/-- The C7 prefetched map: Q2 was inserted before Q1. -/
def c7Items : Items :=
  [("Q2", { id := "Q2", lastrevid := 2 }), ("Q1", { id := "Q1", lastrevid := 1 })]

/-- The fresh statement each C7 triple appends. -/
def c7NewStatement (q v : String) : Statement :=
  { id := new_statement_id q "f", rank := .normal
    mainsnak := .value "P1" "string" (.string v) none }

/-- C7 counterexample: the graph scan encounters Q1's change before Q2's,
yet the run emits Q2 first — emission follows the prefetched items-map
order, not the graph-encounter order the claim asserts. -/
theorem C7_cex :
    c7Graph.subjects = [.uri "wd" "Q1", .uri "wd" "Q2"] ∧
    process_graph c7Graph [("P1", "string")] c7Items [] (fun _ => "f") 0 =
      .ok [("Q2", 2, [c7NewStatement "Q2" "b"], none),
           ("Q1", 1, [c7NewStatement "Q1" "a"], none)] ∧
    (["Q2", "Q1"] : List String) ≠ ["Q1", "Q2"] :=
  ⟨rfl, rfl, by decide⟩

/-- Witness for C7 amended at a concrete (empty-document) run. -/
theorem C7_amended_witness :
    patch_pass ⟨[]⟩ [] c7Items (fun _ => "f") 0 = .ok (c7Items, [], 0) ∧
    build_guid_map c7Items = .ok [] ∧
    process_graph ⟨[]⟩ [] c7Items [] (fun _ => "f") 0 = .ok [] ∧
    ([] : List Edit) = c7Items.filterMap (fun p =>
      if item_changed_statements [] p.2 = [] then none
      else if p.1 ∈ ([] : List String) then none
      else some (p.1, p.2.lastrevid, item_changed_statements [] p.2,
        summary_for ((c7Items, ([] : List (String × List String)), 0) : Items × List (String × List String) × Nat).2.1 p.1)) :=
  ⟨rfl, rfl, rfl,
    C7_amended ⟨[]⟩ [] c7Items [] (fun _ => "f") 0 (c7Items, [], 0) [] []
      rfl rfl rfl (by decide) (by decide) (by decide)⟩

/-! ### Association-list lemmas for the idempotence development -/

theorem lookup_append_left {β : Type} (l₁ l₂ : List (String × β)) (k : String)
    (v : β) (h : l₁.lookup k = some v) : (l₁ ++ l₂).lookup k = some v := by
  induction l₁ with
  | nil => exact Option.noConfusion h
  | cons a l ih =>
    simp only [List.lookup, List.cons_append] at h ⊢
    cases hk : (k == a.1) with
    | true => rw [hk] at h; exact h
    | false => rw [hk] at h; exact ih h

theorem lookup_dictSet_self {β : Type} (l : List (String × β)) (k : String)
    (v : β) : (dictSet l k v).lookup k = some v := by
  induction l with
  | nil => simp [dictSet, List.lookup]
  | cons a t ih =>
    by_cases hk : a.1 = k
    · simp [dictSet, if_pos hk, List.lookup]
    · simp only [dictSet, if_neg hk, List.lookup]
      rw [beq_eq_false_iff_ne.mpr (fun he => hk he.symm)]
      exact ih

theorem lookup_dictSet_ne {β : Type} (l : List (String × β)) (k k' : String)
    (v : β) (h : k ≠ k') : (dictSet l k' v).lookup k = l.lookup k := by
  induction l with
  | nil => simp [dictSet, List.lookup, beq_eq_false_iff_ne.mpr h]
  | cons a t ih =>
    by_cases hk : a.1 = k'
    · simp only [dictSet, if_pos hk, List.lookup]
      rw [beq_eq_false_iff_ne.mpr h, beq_eq_false_iff_ne.mpr (hk ▸ h)]
    · simp only [dictSet, if_neg hk, List.lookup]
      cases hka : (k == a.1) with
      | true => rfl
      | false => exact ih

theorem dictSet_lookup_self_id {β : Type} (l : List (String × β)) (k : String)
    (v : β) (h : l.lookup k = some v) : dictSet l k v = l := by
  induction l with
  | nil => exact Option.noConfusion h
  | cons a t ih =>
    simp only [List.lookup] at h
    by_cases hk : a.1 = k
    · rw [show (k == a.1) = true from beq_iff_eq.mpr hk.symm] at h
      have hv : a.2 = v := Option.some.inj h
      simp only [dictSet, if_pos hk]
      rw [← hk, ← hv]
    · rw [show (k == a.1) = false from beq_eq_false_iff_ne.mpr (fun he => hk he.symm)] at h
      simp only [dictSet, if_neg hk]
      rw [ih h]

theorem mem_of_mem_dedupFirstAux {α : Type} [DecidableEq α] (fuel : Nat)
    (l : List α) (a : α) (h : a ∈ dedupFirstAux fuel l) : a ∈ l := by
  induction fuel generalizing l with
  | zero =>
    cases l with
    | nil => exact absurd h (List.not_mem_nil a)
    | cons x xs => exact absurd h (List.not_mem_nil a)
  | succ fuel ih =>
    cases l with
    | nil => exact absurd h (List.not_mem_nil a)
    | cons x xs =>
      simp only [dedupFirstAux] at h
      rcases List.mem_cons.mp h with he | ht
      · exact he ▸ List.mem_cons_self x xs
      · exact List.mem_cons_of_mem x (List.mem_of_mem_filter (ih _ ht))

theorem nodup_dedupFirstAux {α : Type} [DecidableEq α] (fuel : Nat)
    (l : List α) : (dedupFirstAux fuel l).Nodup := by
  induction fuel generalizing l with
  | zero =>
    cases l with
    | nil => exact List.nodup_nil
    | cons x xs => exact List.nodup_nil
  | succ fuel ih =>
    cases l with
    | nil => exact List.nodup_nil
    | cons x xs =>
      simp only [dedupFirstAux]
      rw [List.nodup_cons]
      refine ⟨?_, ih _⟩
      intro hmem
      have hx := mem_of_mem_dedupFirstAux _ _ _ hmem
      have hp := List.of_mem_filter hx
      simp at hp

theorem mem_subjects (g : Graph) (s : RDFNode) (h : s ∈ g.subjects) :
    ∃ t ∈ g.triples, t.1 = s := by
  unfold Graph.subjects dedupFirst at h
  have hm := mem_of_mem_dedupFirstAux _ _ _ h
  rcases List.mem_map.mp hm with ⟨t, ht, he⟩
  exact ⟨t, ht, he⟩

theorem subjects_nodup (g : Graph) : g.subjects.Nodup :=
  nodup_dedupFirstAux _ _

/-! ### Reflexivity of the value-equality functions on resolver outputs -/

theorem resolve_bnode_time_shape (g : Graph) (b : RDFNode) (dv : DataValue)
    (h : resolve_object_bnode_time_value g b = .ok dv) : ∃ tv, dv = .time tv := by
  unfold resolve_object_bnode_time_value at h
  simp only [bind, Except.bind, pure, Except.pure] at h
  repeat' split at h
  all_goals first
    | exact Except.noConfusion h
    | (injection h with h1; exact ⟨_, h1.symm⟩)

theorem resolve_bnode_quantity_shape (g : Graph) (b : RDFNode) (dv : DataValue)
    (h : resolve_object_bnode_quantity_value g b = .ok dv) :
    ∃ qv, dv = .quantity qv := by
  unfold resolve_object_bnode_quantity_value at h
  simp only [bind, Except.bind, pure, Except.pure] at h
  repeat' split at h
  all_goals first
    | exact Except.noConfusion h
    | (injection h with h1; exact ⟨_, h1.symm⟩)

theorem resolve_literal_not_entityid (l : RDFLiteral) (dv : DataValue)
    (h : resolve_object_literal l = .ok dv) (v : EntityIdValue) :
    dv ≠ .wikibaseEntityid v := by
  unfold resolve_object_literal at h
  repeat' split at h
  all_goals first
    | exact Except.noConfusion h
    | (injection h with h1; intro he; rw [← h1] at he; exact DataValue.noConfusion he)


theorem resolve_bnode_not_entityid (g : Graph) (o : RDFNode) (dv : DataValue)
    (h : resolve_object_bnode g o none = .ok dv) (v : EntityIdValue) :
    dv ≠ .wikibaseEntityid v := by
  simp only [resolve_object_bnode] at h
  split at h
  · rcases resolve_bnode_time_shape _ _ _ h with ⟨tv, he⟩
    subst he
    intro hc
    exact DataValue.noConfusion hc
  · split at h
    · rcases resolve_bnode_quantity_shape _ _ _ h with ⟨qv, he⟩
      subst he
      intro hc
      exact DataValue.noConfusion hc
    · exact Except.noConfusion h


theorem quantity_self_eq (qv : QuantityValue) :
    datavalue_equals (.quantity qv) (.quantity qv) = true := by
  simp only [datavalue_equals]
  have hg : (qv.upperBound.isSome && qv.upperBound.isNone) = false := by
    cases qv.upperBound <;> simp
  rw [hg]
  simp only [Bool.false_eq_true, if_neg]
  split <;> simp

theorem datavalue_equals_refl (dv : DataValue)
    (h : ∀ v, dv = .wikibaseEntityid v →
      v.numericId.isSome = true ∨ v.id.isSome = true) :
    datavalue_equals dv dv = true := by
  cases dv with
  | wikibaseEntityid v =>
    have hv := h v rfl
    simp only [datavalue_equals]
    rw [if_neg (fun hne => hne rfl)]
    cases hn : v.numericId with
    | some x => simp
    | none =>
      rcases hv with h1 | h2
      · rw [hn] at h1; simp at h1
      · cases hi : v.id with
        | some s => simp
        | none => rw [hi] at h2; simp at h2
  | quantity v => exact quantity_self_eq v
  | string v => simp [datavalue_equals]
  | monolingualtext v => simp [datavalue_equals]
  | time v => simp [datavalue_equals]
  | globecoordinate v => simp [datavalue_equals]


theorem resolve_snak_shape (g : Graph) (pdt : List (String × String))
    (pid : String) (o : RDFNode) (snak : Snak)
    (h : resolve_snak g pdt pid o = .ok snak) :
    ∃ dt dv, resolve_object g o = .ok dv ∧ snak = .value pid dt dv none := by
  unfold resolve_snak at h
  simp only [bind, Except.bind, pure, Except.pure] at h
  split at h
  · exact Except.noConfusion h
  · split at h
    · exact Except.noConfusion h
    · rename_i datatype hdt
      split at h
      · exact Except.noConfusion h
      · rename_i dv hro
        split at h
        · rename_i vt hvt
          split at h
          · injection h with h1
            exact ⟨datatype, dv, hro, h1.symm⟩
          · exact Except.noConfusion h
        · exact Except.noConfusion h

theorem resolve_object_refl (g : Graph) (o : RDFNode) (dv : DataValue)
    (h : resolve_object g o = .ok dv) : datavalue_equals dv dv = true := by
  apply datavalue_equals_refl
  intro v he
  subst he
  cases o with
  | uri ns localName =>
    simp only [resolve_object] at h
    unfold resolve_object_uriref at h
    repeat' split at h
    all_goals first
      | exact Except.noConfusion h
      | (injection h with h1; injection h1 with h2; rw [← h2]; left; rfl)
      | (injection h with h1; exact DataValue.noConfusion h1)
  | bnode n =>
    simp only [resolve_object] at h
    exact absurd rfl (resolve_bnode_not_entityid g _ _ h v)
  | lit l =>
    simp only [resolve_object] at h
    exact absurd rfl (resolve_literal_not_entityid l _ h v)

theorem resolve_snak_refl (g : Graph) (pdt : List (String × String))
    (pid : String) (o : RDFNode) (snak : Snak)
    (h : resolve_snak g pdt pid o = .ok snak) : snak_equals snak snak = true := by
  rcases resolve_snak_shape g pdt pid o snak h with ⟨dt, dv, hro, hs⟩
  subst hs
  simp only [snak_equals]
  rw [resolve_object_refl g o dv hro]
  simp

/-! ### Well-formedness and `detect_changed_claims l l = []` -/

/-- The dict-representation invariant a statement coming from (or sent to)
the JSON API satisfies: qualifier maps and reference snak maps have no
duplicate keys. -/
def StatementWF (st : Statement) : Prop :=
  (∀ qs, st.qualifiers = some qs → (qs.map Prod.fst).Nodup) ∧
  (∀ refs, st.references = some refs → ∀ r ∈ refs, (r.snaks.map Prod.fst).Nodup)

theorem dictEqBy_refl {β : Type} (f : β → β → Bool) (l : List (String × β))
    (hn : (l.map Prod.fst).Nodup) (hf : ∀ p ∈ l, f p.2 p.2 = true) :
    dictEqBy f l l = true := by
  unfold dictEqBy
  rw [Bool.and_eq_true]
  constructor <;>
  · rw [List.all_eq_true]
    intro p hp
    rw [lookup_mem_self l hn p hp]
    exact hf p hp

theorem listEqBy_refl {α : Type} (f : α → α → Bool) (l : List α)
    (hf : ∀ a ∈ l, f a a = true) : listEqBy f l l = true := by
  induction l with
  | nil => rfl
  | cons a t ih =>
    have ht := ih (fun b hb => hf b (List.mem_cons_of_mem a hb))
    unfold listEqBy at ht ⊢
    rw [Bool.and_eq_true] at ht
    simp only [List.zip_cons_cons, List.length_cons, List.all_cons]
    simp [hf a (List.mem_cons_self a t), ht.1, ht.2]

theorem reference_eq_py_refl (r : Reference)
    (hn : (r.snaks.map Prod.fst).Nodup) : reference_eq_py r r = true := by
  unfold reference_eq_py
  rw [Bool.and_eq_true, Bool.and_eq_true]
  refine ⟨⟨by simp, ?_⟩, by simp⟩
  exact dictEqBy_refl _ _ hn (fun p _ => by simp)

theorem statement_eq_py_refl (st : Statement) (h : StatementWF st) :
    statement_eq_py st st = true := by
  unfold statement_eq_py
  simp only [Bool.and_eq_true]
  refine ⟨⟨⟨⟨⟨⟨by simp, by simp⟩, by simp⟩, by simp⟩, ?_⟩, ?_⟩, ?_⟩
  case refine_2 =>
    cases ho : st.qualifiersOrder with
    | none => rfl
    | some l => simp [optEqBy]
  · cases hq : st.qualifiers with
    | none => rfl
    | some qs =>
      simp only [optEqBy]
      exact dictEqBy_refl _ _ (h.1 qs hq) (fun p _ => by simp)
  · cases hr : st.references with
    | none => rfl
    | some refs =>
      simp only [optEqBy]
      exact listEqBy_refl _ _ (fun r hrm => reference_eq_py_refl r (h.2 refs hr r hrm))

/-- Every statement of every item of an entity map. -/
def allStatements (l : Items) : List Statement :=
  l.flatMap (fun p => item_statements p.2)

/-- The well-formedness of a post-run entity map that `uuid4` id minting
guarantees in practice: statement ids are non-empty and globally distinct,
and every statement satisfies the dict invariant. -/
def ItemsWF (l : Items) : Prop :=
  (∀ st ∈ allStatements l, st.id ≠ "" ∧ StatementWF st) ∧
  ((allStatements l).map Statement.id).Nodup

theorem guid_fold_inner (sts : List Statement)
    (acc : List (String × Statement)) (hne : ∀ st ∈ sts, st.id ≠ "") :
    sts.foldlM
      (fun acc st =>
        if st.id = "" then Except.error "assert: empty guid"
        else pure (dictSet acc st.id st))
      acc =
      .ok (sts.foldl (fun m st => dictSet m st.id st) acc) := by
  induction sts generalizing acc with
  | nil => rfl
  | cons st rest ih =>
    simp only [List.foldlM, List.foldl]
    rw [if_neg (hne st (List.mem_cons_self st rest))]
    have := ih (dictSet acc st.id st)
      (fun s hs => hne s (List.mem_cons_of_mem st hs))
    simp only [bind, Except.bind, pure, Except.pure] at this ⊢
    exact this

theorem build_guid_map_ok (l : Items)
    (hne : ∀ st ∈ allStatements l, st.id ≠ "") :
    build_guid_map l =
      .ok ((allStatements l).foldl (fun m st => dictSet m st.id st) []) := by
  unfold build_guid_map allStatements
  suffices hgen : ∀ acc, l.foldlM
      (fun acc p => (item_statements p.2).foldlM
        (fun acc st =>
          if st.id = "" then Except.error "assert: empty guid"
          else pure (dictSet acc st.id st))
        acc)
      acc =
      .ok ((l.flatMap (fun p => item_statements p.2)).foldl
        (fun m st => dictSet m st.id st) acc) by
    exact hgen []
  induction l with
  | nil => intro acc; rfl
  | cons p rest ih =>
    intro acc
    simp only [List.foldlM, List.flatMap_cons, List.foldl_append]
    rw [guid_fold_inner _ _
      (fun st hs => hne st (by
        unfold allStatements
        rw [List.flatMap_cons]
        exact List.mem_append_left _ hs))]
    have hne' : ∀ st ∈ allStatements rest, st.id ≠ "" := by
      intro st hs
      apply hne
      unfold allStatements at hs ⊢
      rw [List.flatMap_cons]
      exact List.mem_append_right _ hs
    simp only [bind, Except.bind]
    exact ih hne' _

theorem guid_fold_preserve (sts : List Statement)
    (acc : List (String × Statement)) (k : String)
    (h : ∀ st ∈ sts, st.id ≠ k) :
    (sts.foldl (fun m st => dictSet m st.id st) acc).lookup k = acc.lookup k := by
  induction sts generalizing acc with
  | nil => rfl
  | cons st rest ih =>
    simp only [List.foldl]
    rw [ih (dictSet acc st.id st) (fun s hs => h s (List.mem_cons_of_mem st hs))]
    exact lookup_dictSet_ne acc k st.id st
      (fun he => (h st (List.mem_cons_self st rest)) he.symm)

theorem guid_fold_lookup (sts : List Statement)
    (acc : List (String × Statement))
    (hn : (sts.map Statement.id).Nodup)
    (hfresh : ∀ st ∈ sts, acc.lookup st.id = none) :
    ∀ st ∈ sts,
      (sts.foldl (fun m st => dictSet m st.id st) acc).lookup st.id = some st := by
  induction sts generalizing acc with
  | nil => intro st hs; exact absurd hs (List.not_mem_nil st)
  | cons st0 rest ih =>
    intro st hs
    simp only [List.foldl]
    rcases List.mem_cons.mp hs with he | ht
    · subst he
      rw [guid_fold_preserve rest _ st.id (fun s hsm => by
        intro heq
        have := (List.nodup_cons.mp hn).1
        rw [← heq] at this
        exact this (List.mem_map_of_mem Statement.id hsm))]
      exact lookup_dictSet_self _ _ _
    · apply ih _ (List.nodup_cons.mp hn).2 _ st ht
      intro s hsm
      rw [lookup_dictSet_ne _ _ _ _ (fun he => by
        have := (List.nodup_cons.mp hn).1
        rw [← he] at this
        exact this (List.mem_map_of_mem Statement.id hsm))]
      exact hfresh s (List.mem_cons_of_mem st0 hsm)



theorem detect_self (l : Items) (h : ItemsWF l) :
    detect_changed_claims l l = .ok [] := by
  unfold detect_changed_claims
  rw [build_guid_map_ok l (fun st hs => (h.1 st hs).1)]
  simp only [bind, Except.bind]
  congr 1
  rw [List.flatMap_eq_nil_iff]
  intro p hp
  rw [List.map_eq_nil_iff]
  unfold item_changed_statements
  rw [List.filter_eq_nil_iff]
  intro st hs
  have hmem : st ∈ allStatements l := List.mem_flatMap.mpr ⟨p, hp, hs⟩
  have hlook : (List.foldl (fun m st => dictSet m st.id st) []
      (allStatements l)).lookup st.id = some st :=
    guid_fold_lookup (allStatements l) [] h.2 (fun _ _ => rfl) st hmem
  simp only [statement_changed, hlook]
  rw [if_neg (h.1 st hmem).1]
  simp [statement_eq_py_refl st (h.1 st hmem).2]

/-! ### The second patch pass over a direct-value-only document -/

theorem lookup_append_single_ne {β : Type} (l : List (String × β))
    (k k' : String) (v : β) (h : k' ≠ k) :
    (l ++ [(k, v)]).lookup k' = l.lookup k' := by
  induction l with
  | nil =>
    simp only [List.nil_append, List.lookup]
    rw [beq_eq_false_iff_ne.mpr h]
  | cons a t ih =>
    simp only [List.cons_append, List.lookup]
    cases k' == a.1 with
    | true => rfl
    | false => exact ih

/-- Materializing one claims bucket leaves every other bucket unchanged. -/
theorem ipc_ensure_other (item : Item) (pid pid' : String) (h : pid' ≠ pid) :
    item_property_claims (item_ensure_property_claims item pid) pid' =
      item_property_claims item pid' := by
  unfold item_property_claims item_ensure_property_claims
  cases hs : (List.lookup pid (item.claims.getD [])).isSome with
  | true =>
    simp only [hs, reduceIte, Option.getD_some]
  | false =>
    simp only [hs, Bool.false_eq_true, reduceIte, Option.getD_some]
    rw [lookup_append_single_ne _ _ _ _ h]

/-- Writing a claims bucket makes that bucket the written list. -/
theorem ipc_set_self (item : Item) (pid : String) (sts : List Statement) :
    item_property_claims (item_set_property_claims item pid sts) pid = sts := by
  unfold item_property_claims item_set_property_claims
  simp only [Option.getD_some]
  rw [lookup_dictSet_self]
  rfl

/-- Writing a claims bucket leaves every other bucket unchanged. -/
theorem ipc_set_other (item : Item) (pid pid' : String) (sts : List Statement)
    (h : pid' ≠ pid) :
    item_property_claims (item_set_property_claims item pid sts) pid' =
      item_property_claims item pid' := by
  unfold item_property_claims item_set_property_claims
  simp only [Option.getD_some]
  rw [lookup_dictSet_ne _ _ _ _ h]

theorem contains_append_left (sts sts' : List Statement) (snak : Snak)
    (h : statements_contains_snak sts snak = true) :
    statements_contains_snak (sts ++ sts') snak = true := by
  simp only [statements_contains_snak, List.any_append, Bool.or_eq_true]
  exact Or.inl h

theorem contains_append_new (sts : List Statement) (st : Statement) (snak : Snak)
    (h : snak_equals st.mainsnak snak = true) :
    statements_contains_snak (sts ++ [st]) snak = true := by
  simp only [statements_contains_snak, List.any_append, Bool.or_eq_true]
  right
  simp [h]

/-- A bucket holding a value at some rank exists as a claims key. -/
theorem claims_key_of_contains (item : Item) (pid : String) (snak : Snak)
    (h : statements_contains_snak (item_property_claims item pid) snak = true) :
    ((item.claims.getD []).lookup pid).isSome = true := by
  unfold item_property_claims at h
  cases hl : (item.claims.getD []).lookup pid with
  | some cs => rfl
  | none => rw [hl] at h; simp [statements_contains_snak] at h

/-- Materializing an already-present claims bucket is the identity. -/
theorem ensure_eq_self (item : Item) (pid : String)
    (h : ((item.claims.getD []).lookup pid).isSome = true) :
    item_ensure_property_claims item pid = item := by
  obtain ⟨i, rev, claims⟩ := item
  cases claims with
  | none => simp [List.lookup] at h
  | some l =>
    simp only [Option.getD_some] at h
    unfold item_ensure_property_claims
    simp only [Option.getD_some]
    rw [if_pos h]

/-- A direct-value triple already absorbed by an item: `wdt:` namespace,
well-formed pid, non-bnode object, and a resolvable snak whose value the
item already holds under that property at some rank. -/
def wdtAbsorbed (g : Graph) (pdt : List (String × String)) (item : Item)
    (p : QName × RDFNode) : Prop :=
  p.1.1 = "wdt" ∧ strStartsWith p.1.2 "P" = true ∧ (∀ n, p.2 ≠ .bnode n) ∧
  ∃ snak, resolve_snak g pdt p.1.2 p.2 = .ok snak ∧
    statements_contains_snak (item_property_claims item p.1.2) snak = true

/-- An absorbed `wdt:` step leaves the item, summaries and counter
untouched; at most a deprecated-value warning is appended. -/
theorem wdt_step_noop (g : Graph) (pdt : List (String × String)) (qid : String)
    (u : Nat → String) (item : Item) (w : List Warning) (smm : List String)
    (c : Nat) (pid : String) (o : RDFNode) (snak : Snak)
    (hsnak : resolve_snak g pdt pid o = .ok snak)
    (hpid : strStartsWith pid "P" = true)
    (hobj : ∀ n, o ≠ .bnode n)
    (hc : statements_contains_snak (item_property_claims item pid) snak = true) :
    ∃ w', update_item_step g pdt qid u (item, w, smm, c) ("wdt", pid) o =
      .ok (item, w', smm, c) := by
  have hens := ensure_eq_self item pid (claims_key_of_contains item pid snak hc)
  cases o with
  | bnode n => exact absurd rfl (hobj n)
  | uri ns ln =>
    by_cases hd : statements_contains_direct_snak (item_property_claims item pid)
        snak = true
    · exact ⟨w, by simp [update_item_step, hpid, hsnak, hens, hc, hd, bind,
        Except.bind, pure, Except.pure]⟩
    · exact ⟨w ++ [Warning.deprecatedSnak qid pid], by simp [update_item_step,
        hpid, hsnak, hens, hc, hd, bind, Except.bind, pure, Except.pure]⟩
  | lit l =>
    by_cases hd : statements_contains_direct_snak (item_property_claims item pid)
        snak = true
    · exact ⟨w, by simp [update_item_step, hpid, hsnak, hens, hc, hd, bind,
        Except.bind, pure, Except.pure]⟩
    · exact ⟨w ++ [Warning.deprecatedSnak qid pid], by simp [update_item_step,
        hpid, hsnak, hens, hc, hd, bind, Except.bind, pure, Except.pure]⟩

/-- What one successful `wdt:` step guarantees: the triple is well shaped,
its snak resolves, the step result holds the value under the property, and
every value held before stays held. -/
theorem wdt_step_inv (g : Graph) (pdt : List (String × String)) (qid : String)
    (u : Nat → String) (item : Item) (w : List Warning) (smm : List String)
    (c : Nat) (pid : String) (o : RDFNode) (ritem : Item) (rwarn : List Warning)
    (rsmm : List String) (rc : Nat)
    (h : update_item_step g pdt qid u (item, w, smm, c) ("wdt", pid) o =
      .ok (ritem, rwarn, rsmm, rc)) :
    ((∀ n, o ≠ .bnode n) ∧ strStartsWith pid "P" = true) ∧
    (∃ snak, resolve_snak g pdt pid o = .ok snak ∧
      statements_contains_snak (item_property_claims ritem pid) snak = true) ∧
    (∀ pid' snak',
      statements_contains_snak (item_property_claims item pid') snak' = true →
      statements_contains_snak (item_property_claims ritem pid') snak' = true) := by
  cases o with
  | bnode n =>
    simp only [update_item_step, bind, Except.bind, pure, Except.pure] at h
    exact Except.noConfusion h
  | uri ns ln =>
    simp only [update_item_step, bind, Except.bind, pure, Except.pure,
      if_true] at h
    split at h
    · exact Except.noConfusion h
    · rename_i hpid'
      split at h
      · exact Except.noConfusion h
      · rename_i snak hr
        split at h
        · rename_i hnc
          injection h with he
          injection he with e1 he2
          injection he2 with e2 he3
          injection he3 with e3 e4
          subst e1
          refine ⟨⟨fun n hn => RDFNode.noConfusion hn, not_not.mp hpid'⟩,
            ⟨snak, hr, ?_⟩, ?_⟩
          · rw [ipc_set_self, item_property_claims_ensure]
            exact contains_append_new _ _ _ (resolve_snak_refl g pdt pid _ snak hr)
          · intro pid' snak' hp
            by_cases hpp : pid' = pid
            · subst hpp
              rw [ipc_set_self, item_property_claims_ensure]
              exact contains_append_left _ _ _ hp
            · rw [ipc_set_other _ _ _ _ hpp, ipc_ensure_other _ _ _ hpp]
              exact hp
        · rename_i hc'
          have hc := not_not.mp hc'
          split at h
          · rename_i hnd
            injection h with he
            injection he with e1 he2
            injection he2 with e2 he3
            injection he3 with e3 e4
            subst e1
            refine ⟨⟨fun n hn => RDFNode.noConfusion hn, not_not.mp hpid'⟩,
              ⟨snak, hr, hc⟩, ?_⟩
            intro pid' snak' hp
            by_cases hpp : pid' = pid
            · subst hpp
              rw [item_property_claims_ensure]
              exact hp
            · rw [ipc_ensure_other _ _ _ hpp]
              exact hp
          · rename_i hd'
            injection h with he
            injection he with e1 he2
            injection he2 with e2 he3
            injection he3 with e3 e4
            subst e1
            refine ⟨⟨fun n hn => RDFNode.noConfusion hn, not_not.mp hpid'⟩,
              ⟨snak, hr, hc⟩, ?_⟩
            intro pid' snak' hp
            by_cases hpp : pid' = pid
            · subst hpp
              rw [item_property_claims_ensure]
              exact hp
            · rw [ipc_ensure_other _ _ _ hpp]
              exact hp
  | lit l =>
    simp only [update_item_step, bind, Except.bind, pure, Except.pure,
      if_true] at h
    split at h
    · exact Except.noConfusion h
    · rename_i hpid'
      split at h
      · exact Except.noConfusion h
      · rename_i snak hr
        split at h
        · rename_i hnc
          injection h with he
          injection he with e1 he2
          injection he2 with e2 he3
          injection he3 with e3 e4
          subst e1
          refine ⟨⟨fun n hn => RDFNode.noConfusion hn, not_not.mp hpid'⟩,
            ⟨snak, hr, ?_⟩, ?_⟩
          · rw [ipc_set_self, item_property_claims_ensure]
            exact contains_append_new _ _ _ (resolve_snak_refl g pdt pid _ snak hr)
          · intro pid' snak' hp
            by_cases hpp : pid' = pid
            · subst hpp
              rw [ipc_set_self, item_property_claims_ensure]
              exact contains_append_left _ _ _ hp
            · rw [ipc_set_other _ _ _ _ hpp, ipc_ensure_other _ _ _ hpp]
              exact hp
        · rename_i hc'
          have hc := not_not.mp hc'
          split at h
          · rename_i hnd
            injection h with he
            injection he with e1 he2
            injection he2 with e2 he3
            injection he3 with e3 e4
            subst e1
            refine ⟨⟨fun n hn => RDFNode.noConfusion hn, not_not.mp hpid'⟩,
              ⟨snak, hr, hc⟩, ?_⟩
            intro pid' snak' hp
            by_cases hpp : pid' = pid
            · subst hpp
              rw [item_property_claims_ensure]
              exact hp
            · rw [ipc_ensure_other _ _ _ hpp]
              exact hp
          · rename_i hd'
            injection h with he
            injection he with e1 he2
            injection he2 with e2 he3
            injection he3 with e3 e4
            subst e1
            refine ⟨⟨fun n hn => RDFNode.noConfusion hn, not_not.mp hpid'⟩,
              ⟨snak, hr, hc⟩, ?_⟩
            intro pid' snak' hp
            by_cases hpp : pid' = pid
            · subst hpp
              rw [item_property_claims_ensure]
              exact hp
            · rw [ipc_ensure_other _ _ _ hpp]
              exact hp

/-- Folding only absorbed `wdt:` steps is the identity on the item, the
summaries and the counter. -/
theorem update_item_fold_noop (g : Graph) (pdt : List (String × String))
    (qid : String) (u : Nat → String) (L : List (QName × RDFNode))
    (item : Item) (w : List Warning) (smm : List String) (c : Nat)
    (h : ∀ p ∈ L, wdtAbsorbed g pdt item p) :
    ∃ w', L.foldlM
        (fun acc p => update_item_step g pdt qid u acc p.1 p.2)
        (item, w, smm, c) = .ok (item, w', smm, c) := by
  induction L generalizing w with
  | nil => exact ⟨w, rfl⟩
  | cons p rest ih =>
    obtain ⟨⟨ns, pid⟩, o⟩ := p
    obtain ⟨hwdt, hpid, hobj, snak, hsnak, hc⟩ :=
      h ((ns, pid), o) (List.mem_cons_self _ rest)
    simp only at hwdt
    subst hwdt
    obtain ⟨w1, hstep⟩ := wdt_step_noop g pdt qid u item w smm c pid o snak
      hsnak hpid hobj hc
    obtain ⟨w', hrest⟩ := ih w1 (fun q hq => h q (List.mem_cons_of_mem _ hq))
    refine ⟨w', ?_⟩
    simp only [List.foldlM, bind, Except.bind, hstep]
    exact hrest

/-- Inversion of a successful fold of `wdt:`-shaped steps: every triple ends
up absorbed by the resulting item, and held values persist. -/
theorem wdt_fold_inv (g : Graph) (pdt : List (String × String)) (qid : String)
    (u : Nat → String) (L : List (QName × RDFNode))
    (item : Item) (w : List Warning) (smm : List String) (c : Nat)
    (ritem : Item) (rwarn : List Warning) (rsmm : List String) (rc : Nat)
    (hshape : ∀ p ∈ L, p.1.1 = "wdt")
    (h : L.foldlM (fun acc p => update_item_step g pdt qid u acc p.1 p.2)
      (item, w, smm, c) = .ok (ritem, rwarn, rsmm, rc)) :
    (∀ p ∈ L, wdtAbsorbed g pdt ritem p) ∧
    (∀ pid snak,
      statements_contains_snak (item_property_claims item pid) snak = true →
      statements_contains_snak (item_property_claims ritem pid) snak = true) := by
  induction L generalizing item w smm c with
  | nil =>
    simp only [List.foldlM, pure, Except.pure] at h
    injection h with he
    injection he with e1 he2
    injection he2 with e2 he3
    injection he3 with e3 e4
    subst e1
    exact ⟨fun p hp => absurd hp (List.not_mem_nil p), fun pid snak hp => hp⟩
  | cons p rest ih =>
    obtain ⟨⟨ns, pid⟩, o⟩ := p
    have hns := hshape ((ns, pid), o) (List.mem_cons_self _ rest)
    simp only at hns
    subst hns
    simp only [List.foldlM, bind, Except.bind] at h
    cases hstep : update_item_step g pdt qid u (item, w, smm, c) ("wdt", pid) o with
    | error e => rw [hstep] at h; exact Except.noConfusion h
    | ok acc1 =>
      rw [hstep] at h
      obtain ⟨item1, w1, smm1, c1⟩ := acc1
      obtain ⟨⟨hobj, hpid⟩, ⟨snak, hsnak, hcont⟩, hpres⟩ :=
        wdt_step_inv g pdt qid u item w smm c pid o item1 w1 smm1 c1 hstep
      obtain ⟨habs, hpres'⟩ := ih item1 w1 smm1 c1
        (fun q hq => hshape q (List.mem_cons_of_mem _ hq)) h
      refine ⟨?_, fun pid' snak' hp => hpres' pid' snak' (hpres pid' snak' hp)⟩
      intro q hq
      rcases List.mem_cons.mp hq with he | ht
      · subst he
        exact ⟨rfl, hpid, hobj, snak, hsnak, hpres' pid snak hcont⟩
      · exact habs q ht

/-- `_update_item` over only absorbed `wdt:` triples returns the item and
the counter unchanged. -/
theorem update_item_noop (g : Graph) (pdt : List (String × String))
    (item : Item) (s : RDFNode) (u : Nat → String) (c : Nat)
    (h : ∀ p ∈ g.predicateObjects s, wdtAbsorbed g pdt item p) :
    ∃ w smm, update_item g pdt item s u c = .ok (item, w, smm, c) := by
  obtain ⟨w', hf⟩ := update_item_fold_noop g pdt item.id u
    (g.predicateObjects s) item []
    (match litTruthy (g.literal s ("wikidatabots", "editSummary")) with
      | some l => [l.lex] | none => []) c h
  exact ⟨w', _, hf⟩

/-- Inversion of a successful `_update_item` run over a `wdt:`-only subject:
every triple is absorbed by the resulting item. -/
theorem update_item_inv (g : Graph) (pdt : List (String × String))
    (item : Item) (s : RDFNode) (u : Nat → String) (c : Nat)
    (ritem : Item) (rwarn : List Warning) (rsmm : List String) (rc : Nat)
    (hshape : ∀ p ∈ g.predicateObjects s, p.1.1 = "wdt")
    (h : update_item g pdt item s u c = .ok (ritem, rwarn, rsmm, rc)) :
    ∀ p ∈ g.predicateObjects s, wdtAbsorbed g pdt ritem p := by
  unfold update_item at h
  exact (wdt_fold_inv g pdt item.id u (g.predicateObjects s) item []
    (match litTruthy (g.literal s ("wikidatabots", "editSummary")) with
      | some l => [l.lex] | none => []) c ritem rwarn rsmm rc hshape h).1

/-- One `process_graph` subject whose triples are all absorbed leaves the
entity map and the counter unchanged. -/
theorem process_subject_noop (g : Graph) (pdt : List (String × String))
    (u : Nat → String) (items : Items)
    (summaries : List (String × List String)) (c : Nat) (q : String)
    (item : Item)
    (hq : strStartsWith q "Q" = true)
    (hlk : items.lookup q = some item)
    (h : ∀ p ∈ g.predicateObjects (.uri "wd" q), wdtAbsorbed g pdt item p) :
    ∃ summaries', process_subject g pdt u (items, summaries, c) (.uri "wd" q) =
      .ok (items, summaries', c) := by
  obtain ⟨w, smm, hui⟩ := update_item_noop g pdt item (.uri "wd" q) u c h
  refine ⟨addSummaries summaries q smm, ?_⟩
  simp [process_subject, hq, hlk, hui, dictSet_lookup_self_id items q item hlk,
    bind, Except.bind, pure, Except.pure]

/-- Inversion of a successful `process_graph` subject step on a `wdt:`-only
`wd:` subject: the written item absorbs every triple, and every other key of
the entity map is untouched. -/
theorem process_subject_inv (g : Graph) (pdt : List (String × String))
    (u : Nat → String) (items : Items)
    (summaries : List (String × List String)) (c : Nat) (q : String)
    (ritems : Items) (rsumm : List (String × List String)) (rc : Nat)
    (hshape : ∀ p ∈ g.predicateObjects (.uri "wd" q), p.1.1 = "wdt")
    (h : process_subject g pdt u (items, summaries, c) (.uri "wd" q) =
      .ok (ritems, rsumm, rc)) :
    strStartsWith q "Q" = true ∧
    (∃ item, ritems.lookup q = some item ∧
      ∀ p ∈ g.predicateObjects (.uri "wd" q), wdtAbsorbed g pdt item p) ∧
    (∀ k, k ≠ q → ritems.lookup k = items.lookup k) := by
  simp only [process_subject, bind, Except.bind, pure, Except.pure,
    if_true] at h
  split at h
  · exact Except.noConfusion h
  · rename_i hq'
    split at h
    · exact Except.noConfusion h
    · rename_i item hlk
      split at h
      · exact Except.noConfusion h
      · rename_i r4 hui
        obtain ⟨ritem, rwarn, rsmm4, rc4⟩ := r4
        injection h with he
        injection he with e1 he2
        injection he2 with e2 he3
        subst e1
        refine ⟨not_not.mp hq', ⟨ritem, ?_, ?_⟩, ?_⟩
        · exact lookup_dictSet_self items q ritem
        · exact update_item_inv g pdt item (.uri "wd" q) u c ritem rwarn
            rsmm4 rc4 hshape hui
        · intro k hk
          exact lookup_dictSet_ne items k q ritem hk

/-- Folding `process_subject` over subjects that are all settled leaves the
entity map and the counter unchanged. -/
theorem patch_fold_noop (g : Graph) (pdt : List (String × String))
    (u : Nat → String) (ss : List RDFNode) (items : Items)
    (summaries : List (String × List String)) (c : Nat)
    (h : ∀ s ∈ ss, ∃ q item, s = .uri "wd" q ∧ strStartsWith q "Q" = true ∧
      items.lookup q = some item ∧
      ∀ p ∈ g.predicateObjects s, wdtAbsorbed g pdt item p) :
    ∃ summaries', ss.foldlM (process_subject g pdt u) (items, summaries, c) =
      .ok (items, summaries', c) := by
  induction ss generalizing summaries with
  | nil => exact ⟨summaries, rfl⟩
  | cons s rest ih =>
    obtain ⟨q, item, hsq, hq, hlk, habs⟩ := h s (List.mem_cons_self s rest)
    subst hsq
    obtain ⟨smm1, hstep⟩ := process_subject_noop g pdt u items summaries c q
      item hq hlk habs
    obtain ⟨smm', hrest⟩ := ih smm1 (fun t ht => h t (List.mem_cons_of_mem _ ht))
    refine ⟨smm', ?_⟩
    simp only [List.foldlM, bind, Except.bind, hstep]
    exact hrest

/-- Inversion of a successful patch pass over distinct `wdt:`-only `wd:`
subjects: each subject's entity in the final map absorbs all its triples,
and untouched keys keep their value. -/
theorem patch_fold_inv (g : Graph) (pdt : List (String × String))
    (u : Nat → String) (ss : List RDFNode) (items : Items)
    (summaries : List (String × List String)) (c : Nat)
    (ritems : Items) (rsumm : List (String × List String)) (rc : Nat)
    (hshape : ∀ s ∈ ss, (∃ q, s = .uri "wd" q) ∧
      ∀ p ∈ g.predicateObjects s, p.1.1 = "wdt")
    (hnd : ss.Nodup)
    (h : ss.foldlM (process_subject g pdt u) (items, summaries, c) =
      .ok (ritems, rsumm, rc)) :
    (∀ s ∈ ss, ∀ q, s = .uri "wd" q →
      strStartsWith q "Q" = true ∧
      ∃ item, ritems.lookup q = some item ∧
        ∀ p ∈ g.predicateObjects s, wdtAbsorbed g pdt item p) ∧
    (∀ k, (∀ s ∈ ss, ∀ q, s = .uri "wd" q → q ≠ k) →
      ritems.lookup k = items.lookup k) := by
  induction ss generalizing items summaries c with
  | nil =>
    simp only [List.foldlM, pure, Except.pure] at h
    injection h with he
    injection he with e1 he2
    injection he2 with e2 e3
    subst e1
    exact ⟨fun s hs => absurd hs (List.not_mem_nil s), fun k hk => rfl⟩
  | cons s rest ih =>
    obtain ⟨⟨q, hsq⟩, hpreds⟩ := hshape s (List.mem_cons_self s rest)
    subst hsq
    simp only [List.foldlM, bind, Except.bind] at h
    cases hstep : process_subject g pdt u (items, summaries, c) (.uri "wd" q) with
    | error e => rw [hstep] at h; exact Except.noConfusion h
    | ok mid =>
      rw [hstep] at h
      obtain ⟨items1, summaries1, c1⟩ := mid
      obtain ⟨hq, ⟨item1, hlk1, habs1⟩, hfr1⟩ := process_subject_inv g pdt u
        items summaries c q items1 summaries1 c1 hpreds hstep
      obtain ⟨hsettled, hframe⟩ := ih items1 summaries1 c1
        (fun t ht => hshape t (List.mem_cons_of_mem _ ht))
        (List.nodup_cons.mp hnd).2 h
      have hnotmem := (List.nodup_cons.mp hnd).1
      refine ⟨?_, ?_⟩
      · intro t ht q' htq'
        rcases List.mem_cons.mp ht with he | hmem
        · rw [he] at htq'
          have hqq : q' = q := ((RDFNode.uri.inj htq').2).symm
          subst hqq
          subst he
          refine ⟨hq, item1, ?_, habs1⟩
          rw [hframe q' ?_]
          · exact hlk1
          · intro t2 ht2 q2 htq2 hq2
            subst hq2
            rw [htq2] at ht2
            exact hnotmem ht2
        · exact hsettled t hmem q' htq'
      · intro k hk
        rw [hframe k (fun t ht q2 he => hk t (List.mem_cons_of_mem _ ht) q2 he)]
        exact hfr1 k (Ne.symm (hk (.uri "wd" q) (List.mem_cons_self _ rest) q rfl))

/-- C1 (amended): for a direct-value-only document — every subject a `wd:`
item URI carrying only `wdt:` triples — running `process_graph` against the
entity state produced by a first patch pass yields zero changed statements
and therefore no edits, for any fresh-uuid supply and counter, provided the
first pass left well-formed statement ids (as `uuid4` minting guarantees). -/
theorem C1_amended (g : Graph) (pdt : List (String × String)) (items0 : Items)
    (blocked : List String) (u u' : Nat → String) (c0 c0' : Nat)
    (items1 : Items) (summ1 : List (String × List String)) (c1 : Nat)
    (hshape : ∀ s ∈ g.subjects, (∃ q, s = .uri "wd" q) ∧
      ∀ p ∈ g.predicateObjects s, p.1.1 = "wdt")
    (h1 : patch_pass g pdt items0 u c0 = .ok (items1, summ1, c1))
    (hwf : ItemsWF items1) :
    process_graph g pdt items1 blocked u' c0' = .ok [] := by
  unfold patch_pass at h1
  obtain ⟨hsettled, hfr⟩ := patch_fold_inv g pdt u g.subjects items0 [] c0
    items1 summ1 c1 hshape (subjects_nodup g) h1
  have hnoop : ∀ s ∈ g.subjects, ∃ q item, s = .uri "wd" q ∧
      strStartsWith q "Q" = true ∧ items1.lookup q = some item ∧
      ∀ p ∈ g.predicateObjects s, wdtAbsorbed g pdt item p := by
    intro s hs
    obtain ⟨⟨q, hsq⟩, hpr⟩ := hshape s hs
    obtain ⟨hq, item, hlk, habs⟩ := hsettled s hs q hsq
    exact ⟨q, item, hsq, hq, hlk, habs⟩
  obtain ⟨smm, hpp⟩ := patch_fold_noop g pdt u' g.subjects items1 [] c0' hnoop
  unfold process_graph patch_pass
  simp only [bind, Except.bind, hpp]
  rw [detect_self items1 hwf]
  rfl

/-- The statement-container document of the C1 counterexample: one `p:`
triple introducing a new-statement blank node that carries a `ps:` value. -/
def c1Graph : Graph :=
  ⟨[(.uri "wd" "Q1", ("p", "P370"), .bnode 1),
    (.bnode 1, ("ps", "P370"), .lit ⟨"x", none, none⟩)]⟩

/-- The statement the engine mints for the C1 document under uuid `uid`. -/
def c1St (uid : String) : Statement :=
  { id := "Q1$" ++ uid, rank := .normal,
    mainsnak := .value "P370" "string" (.string "x") none }

/-- The entity after the first C1 run. -/
def c1Item1 : Item :=
  { id := "Q1", lastrevid := 1, claims := some [("P370", [c1St "u0"])] }

/-- The entity map after the first C1 run. -/
def c1Items1 : Items :=
  [("Q1", c1Item1)]

/-- C1 is false as stated: a `p:` statement-container triple appends a fresh
statement on every run, so running `process_graph` a second time against the
state produced by the first patch pass emits a changed statement (under the
fresh uuid) instead of zero changed statements. -/
theorem C1_cex :
    patch_pass c1Graph [("P370", "string")]
      [("Q1", { id := "Q1", lastrevid := 1 })] (fun _ => "u0") 0 =
      .ok (c1Items1, [("Q1", [])], 1) ∧
    process_graph c1Graph [("P370", "string")] c1Items1 [] (fun _ => "v0") 0 =
      .ok [("Q1", 1, [c1St "v0"], none)] :=
  ⟨rfl, rfl⟩

/-- Witness for C1 (amended) at a one-triple direct-value document. -/
theorem C1_amended_witness :
    process_graph (wdtOnlyGraph "Q1" "P370" (.lit ⟨"x", none, none⟩))
      [("P370", "string")] c1Items1 [] (fun _ => "v0") 0 = .ok [] :=
  C1_amended (wdtOnlyGraph "Q1" "P370" (.lit ⟨"x", none, none⟩))
    [("P370", "string")] [("Q1", { id := "Q1", lastrevid := 1 })] []
    (fun _ => "u0") (fun _ => "v0") 0 0 c1Items1 [("Q1", [])] 1
    (by
      intro s hs
      have hs' : s ∈ [RDFNode.uri "wd" "Q1"] := hs
      rw [List.mem_singleton.mp hs']
      refine ⟨⟨"Q1", rfl⟩, ?_⟩
      intro p hp
      have hp' : p ∈ [((("wdt" : String), ("P370" : String)),
        RDFNode.lit ⟨"x", none, none⟩)] := hp
      rw [List.mem_singleton.mp hp']
    )
    rfl
    (by
      constructor
      · intro st hst
        have hst' : st ∈ [c1St "u0"] := hst
        rw [List.mem_singleton.mp hst']
        refine ⟨by decide, ?_, ?_⟩
        · intro qs h
          exact Option.noConfusion h
        · intro refs h
          exact Option.noConfusion h
      · have he : (allStatements c1Items1).map Statement.id = ["Q1$u0"] := rfl
        rw [he]
        decide
    )

end WRP
